import Mathlib

/-!
Verification of the queue-simulation repository core algorithms.

The definitions below are shallow embeddings of the TypeScript source:
numbers are modelled as rationals (reals where the source uses log/sqrt),
`Math.round` as floor of x + 1/2, fallible computations as `Except`/`Option`.
-/

namespace QueueSim

/-- JavaScript `Math.round`: rounds half away from zero for positive values,
half toward positive infinity in general, i.e. `⌊x + 1/2⌋`. -/
def jsRound (q : ℚ) : ℤ := ⌊q + 1/2⌋

/-- A row of a discrete distribution (`DistRow` in `DistributionTable.tsx`). -/
structure DistRow where
  value : ℚ
  probability : ℚ
deriving DecidableEq

/-- A row of the cumulative table (`CumulativeRow` in `DistributionTable.tsx`). -/
structure CumulativeRow where
  value : ℚ
  probability : ℚ
  cumulative : ℚ
  rangeStart : ℤ
  rangeEnd : ℤ
deriving DecidableEq

/-- Tolerance used by `buildCumulative` (`const tolerance = 0.001`). -/
def tolerance : ℚ := 1/1000

/-- The running cumulative sums built by the `dist.map` pass of
`buildCumulative`: pairs each row with its cumulative probability. -/
def cumulativeSums (acc : ℚ) : List DistRow → List (DistRow × ℚ)
  | [] => []
  | r :: rs => (r, acc + r.probability) :: cumulativeSums (acc + r.probability) rs

/-- The digit range end assigned to a row with cumulative probability `c`:
`min(scale, Math.round(cumulative * scale))`. -/
def endOf (scale : ℤ) (c : ℚ) : ℤ := min scale (jsRound (c * (scale : ℚ)))

/-- The `rows.forEach` pass of `buildCumulative`: assigns
`rangeStart = previous rangeEnd + 1` and `rangeEnd = endOf scale cumulative`. -/
def assignRanges (scale : ℤ) (prevEnd : ℤ) : List (DistRow × ℚ) → List CumulativeRow
  | [] => []
  | (r, c) :: rs =>
      { value := r.value, probability := r.probability, cumulative := c,
        rangeStart := prevEnd + 1, rangeEnd := endOf scale c } ::
      assignRanges scale (endOf scale c) rs

/-- The function `buildCumulative` from the source (InventoryPage file, lines 22-52):
errors on an empty distribution or when the probabilities do not sum to 1
within `tolerance`; otherwise produces the cumulative table. -/
def buildCumulative (dist : List DistRow) (scale : ℤ) : Except String (List CumulativeRow) :=
  if dist = [] then .error "Add at least one row"
  else
    let total := (dist.map (·.probability)).sum
    if |total - 1| ≤ tolerance
    then .ok (assignRanges scale 0 (cumulativeSums 0 dist))
    else .error "Probabilities must sum to 1"

/-- The function `mapRandomToValue` from the source (lines 54-59): treats `0` as `scale`,
then returns the value of the first row whose range contains the number. -/
def mapRandomToValue (rand : ℤ) (ranges : List CumulativeRow) (scale : ℤ) : Option ℚ :=
  let normalized := if rand = 0 then scale else rand
  (ranges.find? fun r => decide (r.rangeStart ≤ normalized ∧ normalized ≤ r.rangeEnd)).map
    (·.value)

/-- Number of rows of a cumulative table whose digit range contains `n`. -/
def coveringCount (rows : List CumulativeRow) (n : ℤ) : ℕ :=
  (rows.filter fun r => decide (r.rangeStart ≤ n ∧ n ≤ r.rangeEnd)).length

/-- The list of range ends produced for a list of cumulative pairs. -/
def endsFrom (scale : ℤ) (pairs : List (DistRow × ℚ)) : List ℤ :=
  pairs.map fun p => endOf scale p.2

end QueueSim

namespace QueueSim

lemma coveringCount_nil (n : ℤ) : coveringCount [] n = 0 := rfl

lemma coveringCount_cons (r : CumulativeRow) (rows : List CumulativeRow) (n : ℤ) :
    coveringCount (r :: rows) n =
      (if r.rangeStart ≤ n ∧ n ≤ r.rangeEnd then 1 else 0) + coveringCount rows n := by
  unfold coveringCount
  rw [List.filter_cons]
  by_cases h : r.rangeStart ≤ n ∧ n ≤ r.rangeEnd
  · simp [h, Nat.add_comm]
  · simp [h]

lemma chain'_le_getLastD {a : ℤ} {l : List ℤ} (h : List.Chain' (· ≤ ·) (a :: l)) :
    a ≤ l.getLastD a := by
  induction l generalizing a with
  | nil => simp
  | cons b bs ih =>
      rw [List.chain'_cons] at h
      calc a ≤ b := h.1
        _ ≤ bs.getLastD b := ih h.2
        _ = (b :: bs).getLastD a := (List.getLastD_cons ..).symm

lemma endsFrom_cons (scale : ℤ) (p : DistRow × ℚ) (ps : List (DistRow × ℚ)) :
    endsFrom scale (p :: ps) = endOf scale p.2 :: endsFrom scale ps := rfl

/-- Coverage counting for the range-assignment pass: with a monotone chain of
range ends, each integer strictly above `prevEnd` and at most the final end is
covered by exactly one produced row, and everything else by none. -/
lemma coveringCount_assignRanges (scale : ℤ) (pairs : List (DistRow × ℚ)) :
    ∀ (prevEnd n : ℤ),
      List.Chain' (· ≤ ·) (prevEnd :: endsFrom scale pairs) →
      coveringCount (assignRanges scale prevEnd pairs) n =
        if prevEnd < n ∧ n ≤ (endsFrom scale pairs).getLastD prevEnd then 1 else 0 := by
  induction pairs with
  | nil =>
      intro prevEnd n _
      simp only [endsFrom, List.map_nil, List.getLastD_nil, assignRanges, coveringCount_nil]
      split_ifs with h
      · omega
      · rfl
  | cons p ps ih =>
      intro prevEnd n hchain
      obtain ⟨r, c⟩ := p
      rw [endsFrom_cons] at hchain ⊢
      have h1 : prevEnd ≤ endOf scale c := (List.chain'_cons.mp hchain).1
      have h2 : List.Chain' (· ≤ ·) (endOf scale c :: endsFrom scale ps) :=
        (List.chain'_cons.mp hchain).2
      have h3 : endOf scale c ≤ (endsFrom scale ps).getLastD (endOf scale c) :=
        chain'_le_getLastD h2
      rw [assignRanges, coveringCount_cons, ih (endOf scale c) n h2, List.getLastD_cons]
      simp only
      split_ifs <;> omega

/-- Existence of a covering row (needs no monotonicity): any integer strictly
above `prevEnd` and at most the final range end is covered by some row. -/
lemma exists_covering_assignRanges (scale : ℤ) (pairs : List (DistRow × ℚ)) :
    ∀ (prevEnd n : ℤ), prevEnd < n →
      n ≤ (endsFrom scale pairs).getLastD prevEnd →
      ∃ row ∈ assignRanges scale prevEnd pairs,
        row.rangeStart ≤ n ∧ n ≤ row.rangeEnd := by
  induction pairs with
  | nil =>
      intro prevEnd n hlt hle
      simp only [endsFrom, List.map_nil, List.getLastD_nil] at hle
      omega
  | cons p ps ih =>
      intro prevEnd n hlt hle
      obtain ⟨r, c⟩ := p
      rw [endsFrom_cons, List.getLastD_cons] at hle
      by_cases hn : n ≤ endOf scale c
      · refine ⟨_, List.mem_cons_self .., ?_, hn⟩
        simpa using hlt
      · push_neg at hn
        obtain ⟨row, hmem, hcov⟩ := ih (endOf scale c) n hn hle
        exact ⟨row, List.mem_cons_of_mem _ hmem, hcov⟩

lemma cumulativeSums_snd_chain (dist : List DistRow)
    (h : ∀ r ∈ dist, 0 ≤ r.probability) :
    ∀ acc : ℚ, List.Chain' (· ≤ ·) (acc :: (cumulativeSums acc dist).map Prod.snd) := by
  induction dist with
  | nil => intro acc; simp [cumulativeSums]
  | cons r rs ih =>
      intro acc
      rw [cumulativeSums, List.map_cons, List.chain'_cons]
      constructor
      · have := h r (List.mem_cons_self ..)
        show acc ≤ acc + r.probability
        linarith
      · exact ih (fun x hx => h x (List.mem_cons_of_mem _ hx)) (acc + r.probability)

lemma cumulativeSums_snd_getLastD (dist : List DistRow) :
    ∀ (acc : ℚ) (d : ℚ),
      ((cumulativeSums acc dist).map Prod.snd).getLastD d =
        if dist = [] then d else acc + (dist.map (·.probability)).sum := by
  induction dist with
  | nil => intro acc d; simp [cumulativeSums]
  | cons r rs ih =>
      intro acc d
      rw [cumulativeSums, List.map_cons, List.getLastD_cons, ih,
        if_neg (List.cons_ne_nil r rs)]
      by_cases h : rs = []
      · subst h; simp [cumulativeSums]
      · rw [if_neg h]
        simp [add_assoc]

lemma endsFrom_eq_map (scale : ℤ) (pairs : List (DistRow × ℚ)) :
    endsFrom scale pairs = (pairs.map Prod.snd).map (endOf scale) := by
  simp [endsFrom]

lemma getLastD_map_endOf (scale : ℤ) (l : List ℚ) :
    ∀ a : ℚ, (l.map (endOf scale)).getLastD (endOf scale a) = endOf scale (l.getLastD a) := by
  induction l with
  | nil => intro a; simp
  | cons b bs ih => intro a; rw [List.map_cons, List.getLastD_cons, List.getLastD_cons, ih]

lemma jsRound_mono {q q' : ℚ} (h : q ≤ q') : jsRound q ≤ jsRound q' := by
  unfold jsRound
  exact Int.floor_le_floor (by linarith)

lemma endOf_mono (scale : ℤ) (hs : 0 ≤ scale) {c c' : ℚ} (h : c ≤ c') :
    endOf scale c ≤ endOf scale c' := by
  unfold endOf
  have : (0:ℚ) ≤ (scale : ℚ) := by exact_mod_cast hs
  exact min_le_min le_rfl (jsRound_mono (by nlinarith))

lemma endOf_nonneg (scale : ℤ) (hs : 0 ≤ scale) {c : ℚ} (hc : 0 ≤ c) :
    0 ≤ endOf scale c := by
  unfold endOf jsRound
  have h1 : (0:ℚ) ≤ (scale : ℚ) := by exact_mod_cast hs
  refine le_min hs (Int.le_floor.mpr ?_)
  push_cast
  nlinarith

/-- At the last cumulative probability (the full sum), the assigned range end is
exactly `scale`, provided the sum is within tolerance of 1 and `scale ≤ 500`. -/
lemma endOf_total (scale : ℤ) (total : ℚ) (h1 : 1 ≤ scale) (h2 : scale ≤ 500)
    (htol : |total - 1| ≤ tolerance) : endOf scale total = scale := by
  unfold endOf jsRound
  rw [abs_le, tolerance] at htol
  have hsq : (1:ℚ) ≤ (scale : ℚ) := by exact_mod_cast h1
  have hsq2 : (scale : ℚ) ≤ 500 := by exact_mod_cast h2
  have : (scale : ℤ) ≤ ⌊total * (scale:ℚ) + 1/2⌋ := by
    refine Int.le_floor.mpr ?_
    have : (999:ℚ)/1000 * (scale:ℚ) ≤ total * (scale:ℚ) := by nlinarith
    nlinarith
  omega

lemma assignRanges_map_rangeEnd (scale : ℤ) (pairs : List (DistRow × ℚ)) :
    ∀ prevEnd : ℤ, (assignRanges scale prevEnd pairs).map (·.rangeEnd) = endsFrom scale pairs := by
  induction pairs with
  | nil => intro prevEnd; rfl
  | cons p ps ih =>
      intro prevEnd
      obtain ⟨r, c⟩ := p
      rw [assignRanges, List.map_cons, ih, endsFrom_cons]

lemma getLast?_eq_getLastD {l : List ℤ} (h : l ≠ []) (d : ℤ) :
    l.getLast? = some (l.getLastD d) := by
  induction l generalizing d with
  | nil => simp at h
  | cons a l ih =>
      cases l with
      | nil => simp
      | cons b bs => rw [List.getLastD_cons]; exact ih (by simp) a

lemma endOf_zero (scale : ℤ) (hs : 0 ≤ scale) : endOf scale 0 = 0 := by
  unfold endOf jsRound
  norm_num
  omega

lemma chain_ends (dist : List DistRow) (scale : ℤ)
    (h : ∀ r ∈ dist, 0 ≤ r.probability) (hs : 0 ≤ scale) :
    List.Chain' (· ≤ ·) ((0:ℤ) :: endsFrom scale (cumulativeSums 0 dist)) := by
  have hchain := cumulativeSums_snd_chain dist h 0
  rw [endsFrom_eq_map, List.chain'_cons']
  constructor
  · intro e he
    cases hsn : (cumulativeSums 0 dist).map Prod.snd with
    | nil => simp [hsn] at he
    | cons c cs =>
        rw [hsn, List.map_cons, List.head?_cons, Option.mem_some_iff] at he
        subst he
        have hc : (0:ℚ) ≤ c := by
          rw [hsn] at hchain
          exact (List.chain'_cons.mp hchain).1
        exact endOf_nonneg scale hs hc
  · have htail : List.Chain' (· ≤ ·) ((cumulativeSums 0 dist).map Prod.snd) :=
      hchain.tail
    exact List.chain'_map_of_chain' (endOf scale) (fun a b hab => endOf_mono scale hs hab) htail

/-- Unpacking a successful `buildCumulative` call. -/
lemma buildCumulative_ok (dist : List DistRow) (scale : ℤ) (rows : List CumulativeRow)
    (hok : buildCumulative dist scale = .ok rows) :
    dist ≠ [] ∧ |(dist.map (·.probability)).sum - 1| ≤ tolerance ∧
      rows = assignRanges scale 0 (cumulativeSums 0 dist) := by
  by_cases hd : dist = []
  · simp [buildCumulative, hd] at hok
  · rw [buildCumulative, if_neg hd] at hok
    simp only [] at hok
    split_ifs at hok with htol
    exact ⟨hd, htol, (Except.ok.inj hok).symm⟩

lemma cumulativeSums_ne_nil (dist : List DistRow) (acc : ℚ) (h : dist ≠ []) :
    cumulativeSums acc dist ≠ [] := by
  cases dist with
  | nil => simp at h
  | cons r rs => simp [cumulativeSums]

/-- The last range end of a successfully built table is `scale`
(for nonempty distributions within tolerance and `1 ≤ scale ≤ 500`). -/
lemma finalEnd_eq_scale (dist : List DistRow) (scale : ℤ)
    (hd : dist ≠ []) (h1 : 1 ≤ scale) (h2 : scale ≤ 500)
    (htol : |(dist.map (·.probability)).sum - 1| ≤ tolerance) :
    (endsFrom scale (cumulativeSums 0 dist)).getLastD 0 = scale := by
  have h0 : (0:ℤ) ≤ scale := by omega
  rw [endsFrom_eq_map]
  rw [show (0:ℤ) = endOf scale 0 from (endOf_zero scale h0).symm]
  rw [getLastD_map_endOf, cumulativeSums_snd_getLastD, if_neg hd, zero_add]
  exact endOf_total scale _ h1 h2 htol

/-- Claim C1 (amended): for a nonempty distribution with nonnegative
probabilities summing to 1 within tolerance and an integer scale in [1, 500]
(which covers the two scales 10 and 100 the application uses), the ranges
produced by buildCumulative partition [1, scale]: every integer of
[1, scale] is covered by exactly one row and the last range end is scale. -/
theorem buildCumulative_partition (dist : List DistRow) (scale : ℤ)
    (rows : List CumulativeRow)
    (hnn : ∀ r ∈ dist, 0 ≤ r.probability)
    (h1 : 1 ≤ scale) (h2 : scale ≤ 500)
    (hok : buildCumulative dist scale = .ok rows) :
    (∀ n : ℤ, 1 ≤ n → n ≤ scale → coveringCount rows n = 1) ∧
      (rows.map (·.rangeEnd)).getLast? = some scale := by
  obtain ⟨hd, htol, hrows⟩ := buildCumulative_ok dist scale rows hok
  have h0 : (0:ℤ) ≤ scale := by omega
  have hchain := chain_ends dist scale hnn h0
  have hfinal := finalEnd_eq_scale dist scale hd h1 h2 htol
  constructor
  · intro n hn1 hn2
    rw [hrows, coveringCount_assignRanges scale _ 0 n hchain, hfinal, if_pos (by omega)]
  · rw [hrows, assignRanges_map_rangeEnd]
    have hne : endsFrom scale (cumulativeSums 0 dist) ≠ [] := by
      rw [endsFrom]
      exact fun hc => cumulativeSums_ne_nil dist 0 hd (List.map_eq_nil_iff.mp hc)
    rw [getLast?_eq_getLastD hne 0, hfinal]

/-- Evaluation helper for concrete range ends. -/
lemma endOf_eval (scale : ℤ) (c : ℚ) (n : ℤ) (hns : n ≤ scale)
    (hl : (n:ℚ) ≤ c * (scale:ℚ) + 1/2) (hu : c * (scale:ℚ) + 1/2 < (n:ℚ) + 1) :
    endOf scale c = n := by
  unfold endOf jsRound
  rw [show ⌊c * (scale:ℚ) + 1/2⌋ = n from Int.floor_eq_iff.mpr ⟨hl, by linarith⟩]
  omega

/-- Counterexample to claim C1 as stated: a Distribution summing exactly to 1
but containing a negative probability produces overlapping ranges at the
application's own scale 100 — the integer 50 lies in two rows, not exactly
one. -/
theorem cexC1 :
    buildCumulative [⟨1, 3/5⟩, ⟨2, -1/5⟩, ⟨3, 3/5⟩] 100 =
      .ok [⟨1, 3/5, 3/5, 1, 60⟩, ⟨2, -1/5, 2/5, 61, 40⟩, ⟨3, 3/5, 1, 41, 100⟩] ∧
    |((3:ℚ)/5 + (-1)/5 + 3/5) - 1| ≤ tolerance ∧
    coveringCount [⟨1, 3/5, 3/5, 1, 60⟩, ⟨2, -1/5, 2/5, 61, 40⟩, ⟨3, 3/5, 1, 41, 100⟩] 50 = 2 := by
  have e1 : endOf 100 ((0:ℚ) + 3/5) = 60 := by
    apply endOf_eval <;> norm_num
  have e2 : endOf 100 ((0:ℚ) + 3/5 + (-1)/5) = 40 := by
    apply endOf_eval <;> norm_num
  have e3 : endOf 100 ((0:ℚ) + 3/5 + (-1)/5 + 3/5) = 100 := by
    apply endOf_eval <;> norm_num
  refine ⟨?_, by norm_num [tolerance], by decide⟩
  rw [buildCumulative, if_neg (by simp)]
  simp only [List.map_cons, List.map_nil, List.sum_cons, List.sum_nil]
  rw [if_pos (by norm_num [tolerance])]
  simp only [cumulativeSums, assignRanges, e1, e2, e3]
  norm_num

/-- A concrete successfully built table used to instantiate theorems. -/
lemma buildCumulative_example :
    buildCumulative [(⟨4, 1⟩ : DistRow)] 10 = .ok [⟨4, 1, 1, 1, 10⟩] := by
  have e1 : endOf 10 ((0:ℚ) + 1) = 10 := by apply endOf_eval <;> norm_num
  rw [buildCumulative, if_neg (by simp)]
  simp only [List.map_cons, List.map_nil, List.sum_cons, List.sum_nil]
  rw [if_pos (by norm_num [tolerance])]
  simp only [cumulativeSums, assignRanges, e1]
  norm_num

theorem witC1 :
    (∀ r ∈ ([⟨4, 1⟩] : List DistRow), 0 ≤ r.probability) ∧
    (1:ℤ) ≤ 10 ∧ (10:ℤ) ≤ 500 ∧
    buildCumulative [⟨4, 1⟩] 10 = .ok [⟨4, 1, 1, 1, 10⟩] ∧
    ((∀ n : ℤ, 1 ≤ n → n ≤ 10 → coveringCount [⟨4, 1, 1, 1, 10⟩] n = 1) ∧
      (([⟨4, 1, 1, 1, 10⟩] : List CumulativeRow).map (·.rangeEnd)).getLast? = some 10) :=
  ⟨by norm_num, by norm_num, by norm_num, buildCumulative_example,
    buildCumulative_partition _ 10 _ (by norm_num) (by norm_num) (by norm_num)
      buildCumulative_example⟩

/-- Claim C2 (amended): for any table built successfully at an integer scale
in [1, 500] (covering the scales 10 and 100 used by the application) and any
integer r in [0, scale], the mapper normalizes r = 0 to scale and returns the
value of a row whose range contains the normalized number; it never returns
`none`. No nonnegativity of the probabilities is needed. -/
theorem mapRandomToValue_total (dist : List DistRow) (scale : ℤ)
    (rows : List CumulativeRow) (r : ℤ)
    (h1 : 1 ≤ scale) (h2 : scale ≤ 500)
    (hok : buildCumulative dist scale = .ok rows)
    (hr0 : 0 ≤ r) (hr : r ≤ scale) :
    ∃ row ∈ rows, row.rangeStart ≤ (if r = 0 then scale else r) ∧
      (if r = 0 then scale else r) ≤ row.rangeEnd ∧
      mapRandomToValue r rows scale = some row.value := by
  obtain ⟨hd, htol, hrows⟩ := buildCumulative_ok dist scale rows hok
  set n := if r = 0 then scale else r with hn
  have hn1 : 0 < n := by rw [hn]; split_ifs <;> omega
  have hn2 : n ≤ scale := by rw [hn]; split_ifs <;> omega
  have hfinal := finalEnd_eq_scale dist scale hd h1 h2 htol
  have hex : ∃ row ∈ rows, row.rangeStart ≤ n ∧ n ≤ row.rangeEnd := by
    rw [hrows]
    exact exists_covering_assignRanges scale _ 0 n hn1 (by rw [hfinal]; exact hn2)
  obtain ⟨row0, hmem0, hcov0⟩ := hex
  have hsome : (rows.find? fun row =>
      decide (row.rangeStart ≤ n ∧ n ≤ row.rangeEnd)).isSome := by
    rw [List.find?_isSome]
    exact ⟨row0, hmem0, by simpa using hcov0⟩
  obtain ⟨row, hfind⟩ := Option.isSome_iff_exists.mp hsome
  have hmem : row ∈ rows := List.mem_of_find?_eq_some hfind
  have hcov : row.rangeStart ≤ n ∧ n ≤ row.rangeEnd := by
    simpa using List.find?_some hfind
  refine ⟨row, hmem, hcov.1, hcov.2, ?_⟩
  rw [mapRandomToValue]
  simp only [← hn, hfind, Option.map_some']

/-- Counterexample to claim C2 as stated: at scale 1000 (allowed by the
claim's "every scale") a distribution summing to 0.999 — within tolerance —
yields a table whose last range end is 999, and the in-range draw r = 1000
maps to nothing (the not-mapped result). -/
theorem cexC2 :
    buildCumulative [⟨7, 999/1000⟩] 1000 = .ok [⟨7, 999/1000, 999/1000, 1, 999⟩] ∧
    |((999:ℚ)/1000) - 1| ≤ tolerance ∧
    (0:ℤ) ≤ 1000 ∧
    mapRandomToValue 1000 [⟨7, 999/1000, 999/1000, 1, 999⟩] 1000 = none := by
  have e1 : endOf 1000 ((0:ℚ) + 999/1000) = 999 := by apply endOf_eval <;> norm_num
  refine ⟨?_, by norm_num [tolerance, abs_le], by norm_num, by decide⟩
  rw [buildCumulative, if_neg (by simp)]
  simp only [List.map_cons, List.map_nil, List.sum_cons, List.sum_nil]
  rw [if_pos (by norm_num [tolerance, abs_le])]
  simp only [cumulativeSums, assignRanges, e1]
  norm_num

theorem witC2 :
    ((1:ℤ) ≤ 10 ∧ (10:ℤ) ≤ 500 ∧ (0:ℤ) ≤ 0 ∧ (0:ℤ) ≤ 10) ∧
    ∃ row ∈ ([⟨4, 1, 1, 1, 10⟩] : List CumulativeRow),
      row.rangeStart ≤ (if (0:ℤ) = 0 then 10 else 0) ∧
      (if (0:ℤ) = 0 then 10 else 0) ≤ row.rangeEnd ∧
      mapRandomToValue 0 [⟨4, 1, 1, 1, 10⟩] 10 = some row.value :=
  ⟨⟨by norm_num, by norm_num, by norm_num, by norm_num⟩,
    mapRandomToValue_total _ 10 _ 0 (by norm_num) (by norm_num)
      buildCumulative_example (by norm_num) (by norm_num)⟩

/-- Ledger row of the single-server simulation (`SimulationRow` in the
single-server page). -/
structure SRow where
  customer : ℕ
  randArrival : ℤ
  interarrival : ℚ
  arrival : ℚ
  randService : ℤ
  service : ℚ
  serviceStart : ℚ
  serviceEnd : ℚ
  waiting : ℚ
  idle : ℚ
  timeInSystem : ℚ
deriving DecidableEq

/-- The main loop of `SingleServerPage.runSimulation` (lines 701-735):
`i` is the current customer index, `prevArrival` and `prevEnd` the previous
row's arrival time and service end (the loop reads `table[i - 1]`). -/
def singleLoop (arrivalRows serviceRows : List CumulativeRow)
    (arrivalNums serviceNums : List ℤ) :
    ℕ → ℕ → ℚ → ℚ → Except String (List SRow)
  | 0, _, _, _ => .ok []
  | remaining+1, i, prevArrival, prevEnd =>
      let randArrival : ℤ := if i = 0 then 0 else arrivalNums.getD (i-1) 0
      let randService : ℤ := serviceNums.getD i 0
      let interOpt : Option ℚ :=
        if i = 0 then some 0 else mapRandomToValue randArrival arrivalRows 100
      match interOpt, mapRandomToValue randService serviceRows 100 with
      | some inter, some svc =>
          let arrivalTime : ℚ := if i = 0 then 0 else prevArrival + inter
          let previousServiceEnd : ℚ := if i = 0 then 0 else prevEnd
          let start := max arrivalTime previousServiceEnd
          let row : SRow :=
            { customer := i + 1, randArrival := randArrival, interarrival := inter,
              arrival := arrivalTime, randService := randService, service := svc,
              serviceStart := start, serviceEnd := start + svc,
              waiting := start - arrivalTime, idle := start - previousServiceEnd,
              timeInSystem := (start - arrivalTime) + svc }
          (singleLoop arrivalRows serviceRows arrivalNums serviceNums
            remaining (i+1) arrivalTime (start + svc)).map (row :: ·)
      | _, _ => .error "Random digit could not be mapped to a time. Check tables."

/-- The function `SingleServerPage.runSimulation` (lines 667-741): validations followed by
the simulation loop. -/
def runSingleServer (count : ℕ) (arrivalDist serviceDist : List DistRow)
    (arrivalNums serviceNums : List ℤ) : Except String (List SRow) :=
  if count < 1 then .error "Number of customers must be at least 1"
  else
    match buildCumulative arrivalDist 100, buildCumulative serviceDist 100 with
    | .error e, _ => .error ("Arrival: " ++ e)
    | .ok _, .error e => .error ("Service: " ++ e)
    | .ok arrivalRows, .ok serviceRows =>
        if arrivalNums.length < count - 1 then
          .error "Not enough arrival random digits for the requested customers"
        else if serviceNums.length < count then
          .error "Not enough service random digits for the requested customers"
        else if (arrivalNums ++ serviceNums).any (fun d => decide (d < 1 ∨ 100 < d)) then
          .error "Random digits must be between 01 and 00 (i.e., 1 to 100)"
        else singleLoop arrivalRows serviceRows arrivalNums serviceNums count 0 0 0

/-- The claimed recurrence for a single-server ledger row with index `i`,
relative to the previous row's arrival time `pa` and service end `pe`
(`pe = 0` and `pa` unused for the first customer, `i = 0`). -/
def srowSpec (arrivalRows serviceRows : List CumulativeRow)
    (arrivalNums serviceNums : List ℤ) (i : ℕ) (pa pe : ℚ) (r : SRow) : Prop :=
  r.customer = i + 1 ∧
  r.randArrival = (if i = 0 then 0 else arrivalNums.getD (i-1) 0) ∧
  r.randService = serviceNums.getD i 0 ∧
  (if i = 0 then r.interarrival = 0
    else mapRandomToValue r.randArrival arrivalRows 100 = some r.interarrival) ∧
  r.arrival = (if i = 0 then 0 else pa + r.interarrival) ∧
  mapRandomToValue r.randService serviceRows 100 = some r.service ∧
  r.serviceStart = max r.arrival (if i = 0 then 0 else pe) ∧
  r.waiting = r.serviceStart - r.arrival ∧
  r.idle = r.serviceStart - (if i = 0 then 0 else pe) ∧
  r.serviceEnd = r.serviceStart + r.service ∧
  r.timeInSystem = r.waiting + r.service

lemma singleLoop_spec (arrivalRows serviceRows : List CumulativeRow)
    (arrivalNums serviceNums : List ℤ) :
    ∀ (remaining i : ℕ) (pa pe : ℚ) (rows : List SRow),
      singleLoop arrivalRows serviceRows arrivalNums serviceNums
        remaining i pa pe = .ok rows →
      (∀ h0 : 0 < rows.length,
        srowSpec arrivalRows serviceRows arrivalNums serviceNums i pa pe
          (rows.get ⟨0, h0⟩)) ∧
      (∀ j (hj : j + 1 < rows.length),
        srowSpec arrivalRows serviceRows arrivalNums serviceNums (i + j + 1)
          ((rows.get ⟨j, by omega⟩).arrival) ((rows.get ⟨j, by omega⟩).serviceEnd)
          (rows.get ⟨j+1, hj⟩)) := by
  intro remaining
  induction remaining with
  | zero =>
      intro i pa pe rows hok
      rw [singleLoop] at hok
      obtain rfl := (Except.ok.inj hok).symm
      exact ⟨fun h0 => by simp at h0, fun j hj => by simp at hj⟩
  | succ n ih =>
      intro i pa pe rows hok
      rw [singleLoop] at hok
      split at hok
      next inter svc h1 h2 =>
        dsimp only at hok
        cases hrec : singleLoop arrivalRows serviceRows arrivalNums serviceNums n (i+1)
            (if i = 0 then 0 else pa + inter)
            ((max (if i = 0 then 0 else pa + inter) (if i = 0 then 0 else pe)) + svc) with
        | error e =>
            rw [hrec] at hok
            exact absurd hok (by simp [Except.map])
        | ok rest =>
            rw [hrec] at hok
            simp only [Except.map] at hok
            obtain rfl := (Except.ok.inj hok).symm
            have hhead := (ih (i+1) (if i = 0 then 0 else pa + inter)
              ((max (if i = 0 then 0 else pa + inter) (if i = 0 then 0 else pe)) + svc)
              rest hrec).1
            have hstep := (ih (i+1) (if i = 0 then 0 else pa + inter)
              ((max (if i = 0 then 0 else pa + inter) (if i = 0 then 0 else pe)) + svc)
              rest hrec).2
            constructor
            · intro h0
              unfold srowSpec
              by_cases hi : i = 0
              · subst hi
                simp only [if_pos rfl] at h1
                refine ⟨rfl, rfl, rfl, ?_, rfl, h2, rfl, rfl, rfl, rfl, rfl⟩
                simp only [List.get, if_pos rfl]
                exact (Option.some.inj h1).symm
              · refine ⟨rfl, rfl, rfl, ?_, rfl, h2, rfl, rfl, rfl, rfl, rfl⟩
                simp only [List.get, if_neg hi]
                rw [if_neg hi] at h1
                rw [if_neg hi] at h1
                exact h1
            · intro j hj
              cases j with
              | zero =>
                  have h0 : 0 < rest.length := by
                    simp only [List.length_cons] at hj
                    omega
                  have := hhead h0
                  simpa [List.get] using this
              | succ jp =>
                  have hjp : jp + 1 < rest.length := by
                    simp only [List.length_cons] at hj
                    omega
                  have := hstep jp hjp
                  have hidx : i + 1 + jp + 1 = i + (jp + 1) + 1 := by omega
                  rw [hidx] at this
                  simpa [List.get] using this
      next hcase =>
        exact absurd hok (by simp)

/-- Claim C3: every ledger produced by a successful single-server run
satisfies the stated recurrence: row 0 has interarrival 0, arrival 0 and
serviceStart max(arrival, 0); row i+1 maps the i-th arrival digit to its
interarrival, adds it to the previous arrival, starts service at
max(arrival, previous serviceEnd), and derives waiting, idle, serviceEnd
and timeInSystem exactly as claimed (see `srowSpec`). -/
theorem singleServer_recurrence (count : ℕ) (arrivalDist serviceDist : List DistRow)
    (arrivalNums serviceNums : List ℤ) (rows : List SRow)
    (hok : runSingleServer count arrivalDist serviceDist arrivalNums serviceNums = .ok rows) :
    ∃ arrivalRows serviceRows,
      buildCumulative arrivalDist 100 = .ok arrivalRows ∧
      buildCumulative serviceDist 100 = .ok serviceRows ∧
      (∀ h0 : 0 < rows.length,
        srowSpec arrivalRows serviceRows arrivalNums serviceNums 0 0 0
          (rows.get ⟨0, h0⟩)) ∧
      (∀ j (hj : j + 1 < rows.length),
        srowSpec arrivalRows serviceRows arrivalNums serviceNums (j + 1)
          ((rows.get ⟨j, by omega⟩).arrival) ((rows.get ⟨j, by omega⟩).serviceEnd)
          (rows.get ⟨j+1, hj⟩)) := by
  rw [runSingleServer] at hok
  by_cases hc : count < 1
  · rw [if_pos hc] at hok
    exact absurd hok (by simp)
  rw [if_neg hc] at hok
  cases ha : buildCumulative arrivalDist 100 with
  | error e => rw [ha] at hok; exact absurd hok (by simp)
  | ok arrivalRows =>
  cases hs : buildCumulative serviceDist 100 with
  | error e => rw [ha, hs] at hok; exact absurd hok (by simp)
  | ok serviceRows =>
      rw [ha, hs] at hok
      dsimp only at hok
      by_cases hl1 : arrivalNums.length < count - 1
      · rw [if_pos hl1] at hok; exact absurd hok (by simp)
      rw [if_neg hl1] at hok
      by_cases hl2 : serviceNums.length < count
      · rw [if_pos hl2] at hok; exact absurd hok (by simp)
      rw [if_neg hl2] at hok
      by_cases hl3 : ((arrivalNums ++ serviceNums).any fun d => decide (d < 1 ∨ 100 < d)) = true
      · rw [if_pos hl3] at hok; exact absurd hok (by simp)
      rw [if_neg hl3] at hok
      have hspec := singleLoop_spec arrivalRows serviceRows arrivalNums serviceNums
        count 0 0 0 rows hok
      refine ⟨arrivalRows, serviceRows, rfl, rfl, hspec.1, fun j hj => ?_⟩
      have := hspec.2 j hj
      simpa using this

lemma buildCumulative_example100a :
    buildCumulative [(⟨4, 1⟩ : DistRow)] 100 = .ok [⟨4, 1, 1, 1, 100⟩] := by
  have e1 : endOf 100 ((0:ℚ) + 1) = 100 := by apply endOf_eval <;> norm_num
  rw [buildCumulative, if_neg (by simp)]
  simp only [List.map_cons, List.map_nil, List.sum_cons, List.sum_nil]
  rw [if_pos (by norm_num [tolerance])]
  simp only [cumulativeSums, assignRanges, e1]
  norm_num

lemma buildCumulative_example100b :
    buildCumulative [(⟨3, 1⟩ : DistRow)] 100 = .ok [⟨3, 1, 1, 1, 100⟩] := by
  have e1 : endOf 100 ((0:ℚ) + 1) = 100 := by apply endOf_eval <;> norm_num
  rw [buildCumulative, if_neg (by simp)]
  simp only [List.map_cons, List.map_nil, List.sum_cons, List.sum_nil]
  rw [if_pos (by norm_num [tolerance])]
  simp only [cumulativeSums, assignRanges, e1]
  norm_num

lemma runSingle_example :
    runSingleServer 2 [⟨4, 1⟩] [⟨3, 1⟩] [50] [10, 90] =
      .ok [⟨1, 0, 0, 0, 10, 3, 0, 3, 0, 0, 3⟩, ⟨2, 50, 4, 4, 90, 3, 4, 7, 0, 1, 3⟩] := by
  have m50 : mapRandomToValue 50 [⟨4, 1, 1, 1, 100⟩] 100 = some 4 := by decide
  have m10 : mapRandomToValue 10 [⟨3, 1, 1, 1, 100⟩] 100 = some 3 := by decide
  have m90 : mapRandomToValue 90 [⟨3, 1, 1, 1, 100⟩] 100 = some 3 := by decide
  rw [runSingleServer, if_neg (by norm_num), buildCumulative_example100a,
    buildCumulative_example100b]
  dsimp only
  rw [if_neg (by norm_num), if_neg (by norm_num), if_neg (by decide)]
  simp only [singleLoop, List.getD]
  norm_num
  rw [m10]
  dsimp only
  rw [m50, m90]
  dsimp only
  norm_num [Except.map]

theorem witC3 :
    runSingleServer 2 [⟨4, 1⟩] [⟨3, 1⟩] [50] [10, 90] =
      .ok [⟨1, 0, 0, 0, 10, 3, 0, 3, 0, 0, 3⟩, ⟨2, 50, 4, 4, 90, 3, 4, 7, 0, 1, 3⟩] ∧
    ∃ arrivalRows serviceRows,
      buildCumulative [⟨4, 1⟩] 100 = .ok arrivalRows ∧
      buildCumulative [⟨3, 1⟩] 100 = .ok serviceRows ∧
      (∀ h0 : 0 < ([⟨1, 0, 0, 0, 10, 3, 0, 3, 0, 0, 3⟩,
          ⟨2, 50, 4, 4, 90, 3, 4, 7, 0, 1, 3⟩] : List SRow).length,
        srowSpec arrivalRows serviceRows [50] [10, 90] 0 0 0
          (([⟨1, 0, 0, 0, 10, 3, 0, 3, 0, 0, 3⟩,
            ⟨2, 50, 4, 4, 90, 3, 4, 7, 0, 1, 3⟩] : List SRow).get ⟨0, h0⟩)) ∧
      (∀ j (hj : j + 1 < ([⟨1, 0, 0, 0, 10, 3, 0, 3, 0, 0, 3⟩,
          ⟨2, 50, 4, 4, 90, 3, 4, 7, 0, 1, 3⟩] : List SRow).length),
        srowSpec arrivalRows serviceRows [50] [10, 90] (j + 1)
          ((([⟨1, 0, 0, 0, 10, 3, 0, 3, 0, 0, 3⟩,
            ⟨2, 50, 4, 4, 90, 3, 4, 7, 0, 1, 3⟩] : List SRow).get ⟨j, by omega⟩).arrival)
          ((([⟨1, 0, 0, 0, 10, 3, 0, 3, 0, 0, 3⟩,
            ⟨2, 50, 4, 4, 90, 3, 4, 7, 0, 1, 3⟩] : List SRow).get ⟨j, by omega⟩).serviceEnd)
          (([⟨1, 0, 0, 0, 10, 3, 0, 3, 0, 0, 3⟩,
            ⟨2, 50, 4, 4, 90, 3, 4, 7, 0, 1, 3⟩] : List SRow).get ⟨j+1, hj⟩)) :=
  ⟨runSingle_example, singleServer_recurrence 2 _ _ _ _ _ runSingle_example⟩

/-- The per-customer assignment data of `MultiServerPage.runSimulation`
(lines 1039-1116): which server serves the customer, when service starts
and ends, the waiting time and both idle deltas. -/
structure MAssign where
  serverUsed : ℕ
  serviceTime : ℚ
  serviceStart : ℚ
  serviceEnd : ℚ
  waiting : ℚ
  idle1 : ℚ
  idle2 : ℚ
deriving DecidableEq

/-- The server-selection logic of `MultiServerPage.runSimulation`
(lines 1047-1116), returning the assignment together with the updated
busy-until times of the two servers. -/
def multiAssign (priorityServer : ℕ) (server1End server2End arrivalTime svc1 svc2 : ℚ) :
    MAssign × ℚ × ℚ :=
  let server1Available := server1End ≤ arrivalTime
  let server2Available := server2End ≤ arrivalTime
  if server1Available ∧ server2Available then
    if priorityServer = 1 then
      (⟨1, svc1, arrivalTime, arrivalTime + svc1, 0, max 0 (arrivalTime - server1End), 0⟩,
        arrivalTime + svc1, server2End)
    else
      (⟨2, svc2, arrivalTime, arrivalTime + svc2, 0, 0, max 0 (arrivalTime - server2End)⟩,
        server1End, arrivalTime + svc2)
  else if server1Available then
    (⟨1, svc1, arrivalTime, arrivalTime + svc1, 0, max 0 (arrivalTime - server1End), 0⟩,
      arrivalTime + svc1, server2End)
  else if server2Available then
    (⟨2, svc2, arrivalTime, arrivalTime + svc2, 0, 0, max 0 (arrivalTime - server2End)⟩,
      server1End, arrivalTime + svc2)
  else if server1End ≤ server2End then
    (⟨1, svc1, server1End, server1End + svc1, server1End - arrivalTime, 0, 0⟩,
      server1End + svc1, server2End)
  else
    (⟨2, svc2, server2End, server2End + svc2, server2End - arrivalTime, 0, 0⟩,
      server1End, server2End + svc2)

/-- Ledger row of the multi-server simulation: the fields of the unused
server are nulled out. -/
structure MRow where
  customer : ℕ
  randArrival : ℤ
  interarrival : ℚ
  arrival : ℚ
  randService : ℤ
  service1 : Option ℚ
  serviceStart1 : Option ℚ
  serviceEnd1 : Option ℚ
  service2 : Option ℚ
  serviceStart2 : Option ℚ
  serviceEnd2 : Option ℚ
  waiting : ℚ
  idle1 : ℚ
  idle2 : ℚ
  timeInSystem : ℚ
  serverUsed : ℕ
deriving DecidableEq

/-- The main loop of `MultiServerPage.runSimulation` (lines 1022-1138):
one shared random digit per customer is looked up in both service tables. -/
def multiLoop (priorityServer : ℕ) (arrivalRows service1Rows service2Rows : List CumulativeRow)
    (arrivalNums serviceNums : List ℤ) :
    ℕ → ℕ → ℚ → ℚ → ℚ → Except String (List MRow)
  | 0, _, _, _, _ => .ok []
  | remaining+1, i, prevArrival, server1End, server2End =>
      let randArrival : ℤ := if i = 0 then 0 else arrivalNums.getD (i-1) 0
      let randService : ℤ := serviceNums.getD i 0
      let interOpt : Option ℚ :=
        if i = 0 then some 0 else mapRandomToValue randArrival arrivalRows 100
      match interOpt, mapRandomToValue randService service1Rows 100,
          mapRandomToValue randService service2Rows 100 with
      | some inter, some svc1, some svc2 =>
          let arrivalTime : ℚ := if i = 0 then 0 else prevArrival + inter
          let res := multiAssign priorityServer server1End server2End arrivalTime svc1 svc2
          let a := res.1
          let row : MRow :=
            { customer := i + 1, randArrival := randArrival, interarrival := inter,
              arrival := arrivalTime, randService := randService,
              service1 := if a.serverUsed = 1 then some svc1 else none,
              serviceStart1 := if a.serverUsed = 1 then some a.serviceStart else none,
              serviceEnd1 := if a.serverUsed = 1 then some a.serviceEnd else none,
              service2 := if a.serverUsed = 2 then some svc2 else none,
              serviceStart2 := if a.serverUsed = 2 then some a.serviceStart else none,
              serviceEnd2 := if a.serverUsed = 2 then some a.serviceEnd else none,
              waiting := a.waiting, idle1 := a.idle1, idle2 := a.idle2,
              timeInSystem := a.waiting + a.serviceTime, serverUsed := a.serverUsed }
          (multiLoop priorityServer arrivalRows service1Rows service2Rows
            arrivalNums serviceNums remaining (i+1) arrivalTime res.2.1 res.2.2).map (row :: ·)
      | _, _, _ => .error "Random digit could not be mapped to a time. Check tables."

/-- The function `MultiServerPage.runSimulation` (lines 981-1145). -/
def runMultiServer (priorityServer count : ℕ)
    (arrivalDist service1Dist service2Dist : List DistRow)
    (arrivalNums serviceNums : List ℤ) : Except String (List MRow) :=
  if count < 1 then .error "Number of customers must be at least 1"
  else
    match buildCumulative arrivalDist 100, buildCumulative service1Dist 100,
        buildCumulative service2Dist 100 with
    | .error e, _, _ => .error ("Arrival: " ++ e)
    | .ok _, .error e, _ => .error ("Server 1: " ++ e)
    | .ok _, .ok _, .error e => .error ("Server 2: " ++ e)
    | .ok arrivalRows, .ok service1Rows, .ok service2Rows =>
        if arrivalNums.length < count - 1 then
          .error "Not enough arrival random digits for the requested customers"
        else if serviceNums.length < count then
          .error "Not enough service random digits for the requested customers"
        else if (arrivalNums ++ serviceNums).any (fun d => decide (d < 1 ∨ 100 < d)) then
          .error "Random digits must be between 01 and 00 (i.e., 1 to 100)"
        else multiLoop priorityServer arrivalRows service1Rows service2Rows
          arrivalNums serviceNums count 0 0 0 0

/-- Claim C4: the server-selection rule. With both servers free at arrival,
the priority server is used and waiting is 0; with exactly one free, that
one is used and waiting is 0; with both busy, the server with the smaller
busy-until time is used (server 1 on ties), service starts when it frees
and waiting is the gap from arrival to that start. -/
theorem multiServer_assignment (priorityServer : ℕ)
    (server1End server2End arrivalTime svc1 svc2 : ℚ)
    (hp : priorityServer = 1 ∨ priorityServer = 2) :
    (server1End ≤ arrivalTime ∧ server2End ≤ arrivalTime →
      (multiAssign priorityServer server1End server2End arrivalTime svc1 svc2).1.serverUsed =
        priorityServer ∧
      (multiAssign priorityServer server1End server2End arrivalTime svc1 svc2).1.waiting = 0) ∧
    (server1End ≤ arrivalTime ∧ ¬ server2End ≤ arrivalTime →
      (multiAssign priorityServer server1End server2End arrivalTime svc1 svc2).1.serverUsed = 1 ∧
      (multiAssign priorityServer server1End server2End arrivalTime svc1 svc2).1.waiting = 0) ∧
    (¬ server1End ≤ arrivalTime ∧ server2End ≤ arrivalTime →
      (multiAssign priorityServer server1End server2End arrivalTime svc1 svc2).1.serverUsed = 2 ∧
      (multiAssign priorityServer server1End server2End arrivalTime svc1 svc2).1.waiting = 0) ∧
    (¬ server1End ≤ arrivalTime ∧ ¬ server2End ≤ arrivalTime →
      (multiAssign priorityServer server1End server2End arrivalTime svc1 svc2).1.serverUsed =
        (if server1End ≤ server2End then 1 else 2) ∧
      (multiAssign priorityServer server1End server2End arrivalTime svc1 svc2).1.serviceStart =
        min server1End server2End ∧
      (multiAssign priorityServer server1End server2End arrivalTime svc1 svc2).1.waiting =
        min server1End server2End - arrivalTime) := by
  refine ⟨fun hfree => ?_, fun hfree => ?_, fun hfree => ?_, fun hbusy => ?_⟩
  · rw [multiAssign]
    rw [if_pos hfree]
    rcases hp with hp | hp
    · subst hp; rw [if_pos rfl]; exact ⟨rfl, rfl⟩
    · subst hp; rw [if_neg (by omega)]; exact ⟨rfl, rfl⟩
  · rw [multiAssign]
    rw [if_neg (by tauto), if_pos hfree.1]
    exact ⟨rfl, rfl⟩
  · rw [multiAssign]
    rw [if_neg (by tauto), if_neg hfree.1, if_pos hfree.2]
    exact ⟨rfl, rfl⟩
  · rw [multiAssign]
    rw [if_neg (by tauto), if_neg hbusy.1, if_neg hbusy.2]
    by_cases hcmp : server1End ≤ server2End
    · rw [if_pos hcmp, if_pos hcmp, min_eq_left hcmp]
      exact ⟨rfl, rfl, rfl⟩
    · rw [if_neg hcmp, if_neg hcmp, min_eq_right (le_of_not_le hcmp)]
      exact ⟨rfl, rfl, rfl⟩

theorem witC4 :
    ((2:ℕ) = 1 ∨ (2:ℕ) = 2) ∧
    (((5:ℚ) ≤ 1 ∧ (3:ℚ) ≤ 1 →
      (multiAssign 2 5 3 1 2 4).1.serverUsed = 2 ∧ (multiAssign 2 5 3 1 2 4).1.waiting = 0) ∧
    ((5:ℚ) ≤ 1 ∧ ¬ (3:ℚ) ≤ 1 →
      (multiAssign 2 5 3 1 2 4).1.serverUsed = 1 ∧ (multiAssign 2 5 3 1 2 4).1.waiting = 0) ∧
    (¬ (5:ℚ) ≤ 1 ∧ (3:ℚ) ≤ 1 →
      (multiAssign 2 5 3 1 2 4).1.serverUsed = 2 ∧ (multiAssign 2 5 3 1 2 4).1.waiting = 0) ∧
    (¬ (5:ℚ) ≤ 1 ∧ ¬ (3:ℚ) ≤ 1 →
      (multiAssign 2 5 3 1 2 4).1.serverUsed = (if (5:ℚ) ≤ 3 then 1 else 2) ∧
      (multiAssign 2 5 3 1 2 4).1.serviceStart = min (5:ℚ) 3 ∧
      (multiAssign 2 5 3 1 2 4).1.waiting = min (5:ℚ) 3 - 1)) :=
  ⟨Or.inr rfl, multiServer_assignment 2 5 3 1 2 4 (Or.inr rfl)⟩

/-- JavaScript truncation (`Math.trunc`, used implicitly by the `%` operator):
rounds toward zero. -/
def jsTrunc (q : ℚ) : ℤ := if 0 ≤ q then ⌊q⌋ else ⌈q⌉

/-- The JavaScript remainder operator `a % b` (truncated division). -/
def jsMod (a b : ℚ) : ℚ := a - b * (jsTrunc (a / b) : ℚ)

/-- A pending inventory order (`{quantity, arrivalCycle, arrivalDay}`). -/
structure PendingOrder where
  quantity : ℚ
  arrivalCycle : ℚ
  arrivalDay : ℚ
deriving DecidableEq

/-- Ledger row of the inventory simulation (`SimulationRow` in the
inventory page). -/
structure InvRow where
  cycle : ℕ
  day : ℕ
  beginningInventory : ℚ
  randDemand : ℤ
  demand : ℚ
  endingInventory : ℚ
  shortage : ℚ
  orderQuantity : Option ℚ
  randLeadTime : Option ℤ
  daysUntilArrival : Option ℚ
deriving DecidableEq

/-- Working state of the inventory loop: on-hand inventory, the previous
row's accumulated shortage, pending orders and the two digit indices. -/
structure InvState where
  inventory : ℚ
  shortage : ℚ
  pending : List PendingOrder
  demandIdx : ℕ
  leadIdx : ℕ
deriving DecidableEq

/-- Whether a pending order arrives on the given (cycle, day). -/
def arrivesOn (cycle day : ℕ) (o : PendingOrder) : Bool :=
  decide (o.arrivalCycle = (cycle:ℚ) ∧ o.arrivalDay = (day:ℚ))

/-- Backlog settlement (lines 314-323): pay accumulated shortage out of
on-hand inventory first; returns (inventory, shortage) after settlement. -/
def settleBacklog (inventory0 shortage0 : ℚ) : ℚ × ℚ :=
  if 0 < shortage0 then
    if shortage0 ≤ inventory0 then (inventory0 - shortage0, 0)
    else (0, shortage0 - inventory0)
  else (inventory0, shortage0)

/-- Demand satisfaction (lines 325-336): returns
(endingInventory, shortage) after the day's demand is applied. -/
def applyDemand (inv1 acc1 demandToday : ℚ) : ℚ × ℚ :=
  if demandToday ≤ inv1 then (inv1 - demandToday, acc1)
  else (0, acc1 + (demandToday - inv1))

/-- The periodic review (lines 338-395): on the last day of the cycle the
order quantity is computed and, when positive and a lead-time digit remains,
a pending order is enqueued; the ledger row and next state are produced. -/
def invReview (days : ℕ) (invLimit : ℤ) (leadRows : List CumulativeRow)
    (leadNums : List ℤ) (cycle day : ℕ) (st : InvState)
    (pending1 : List PendingOrder) (daysUntil0 : Option ℚ)
    (inventory0 : ℚ) (randDemand : ℤ) (demandToday endingInventory shortage : ℚ) :
    Except String (InvRow × InvState) :=
  if day = days then
    let orderQuantity : ℚ := (invLimit:ℚ) - endingInventory + shortage
    if 0 < orderQuantity then
      if st.leadIdx < leadNums.length then
        let randLead := leadNums.getD st.leadIdx 0
        match mapRandomToValue randLead leadRows 10 with
        | none => .error "Lead time random digit could not be mapped. Check tables."
        | some leadTimeDays =>
            let currentAbsDay : ℚ := ((cycle:ℚ) - 1) * (days:ℚ) + (day:ℚ)
            let arrivalAbsDay := currentAbsDay + leadTimeDays + 1
            let arrivalCycle : ℚ := (⌈arrivalAbsDay / (days:ℚ)⌉ : ℤ)
            let arrivalDay0 := jsMod arrivalAbsDay (days:ℚ)
            let arrivalDay := if arrivalDay0 = 0 then (days:ℚ) else arrivalDay0
            .ok ({ cycle := cycle, day := day, beginningInventory := inventory0,
                    randDemand := randDemand, demand := demandToday,
                    endingInventory := endingInventory, shortage := shortage,
                    orderQuantity := some orderQuantity, randLeadTime := some randLead,
                    daysUntilArrival := some leadTimeDays },
                  { inventory := endingInventory, shortage := shortage,
                    pending := pending1 ++ [⟨orderQuantity, arrivalCycle, arrivalDay⟩],
                    demandIdx := st.demandIdx + 1, leadIdx := st.leadIdx + 1 })
      else
        .ok ({ cycle := cycle, day := day, beginningInventory := inventory0,
                randDemand := randDemand, demand := demandToday,
                endingInventory := endingInventory, shortage := shortage,
                orderQuantity := some orderQuantity, randLeadTime := none,
                daysUntilArrival := daysUntil0 },
              { inventory := endingInventory, shortage := shortage,
                pending := pending1, demandIdx := st.demandIdx + 1,
                leadIdx := st.leadIdx })
    else
      .ok ({ cycle := cycle, day := day, beginningInventory := inventory0,
              randDemand := randDemand, demand := demandToday,
              endingInventory := endingInventory, shortage := shortage,
              orderQuantity := some orderQuantity, randLeadTime := none,
              daysUntilArrival := daysUntil0 },
            { inventory := endingInventory, shortage := shortage,
              pending := pending1, demandIdx := st.demandIdx + 1,
              leadIdx := st.leadIdx })
  else
    .ok ({ cycle := cycle, day := day, beginningInventory := inventory0,
            randDemand := randDemand, demand := demandToday,
            endingInventory := endingInventory, shortage := shortage,
            orderQuantity := none, randLeadTime := none,
            daysUntilArrival := daysUntil0 },
          { inventory := endingInventory, shortage := shortage,
            pending := pending1, demandIdx := st.demandIdx + 1,
            leadIdx := st.leadIdx })

/-- One simulated day of `InventoryPage.runSimulation` (lines 268-398):
order arrivals, backlog settlement, demand, then the periodic review. -/
def invDay (days : ℕ) (invLimit : ℤ) (demandRows leadRows : List CumulativeRow)
    (demandNums leadNums : List ℤ) (cycle day : ℕ) (st : InvState) :
    Except String (InvRow × InvState) :=
  let arrivalsToday := ((st.pending.filter (arrivesOn cycle day)).map (·.quantity)).sum
  let pending1 := st.pending.filter fun o => ! arrivesOn cycle day o
  let inventory0 := st.inventory + arrivalsToday
  let daysUntil0 : Option ℚ :=
    if pending1 = [] then none
    else
      match ((pending1.filter fun o => decide (o.arrivalCycle = (cycle:ℚ))).map
          (·.arrivalDay)).min? with
      | some nextArrivalDay => some (max 0 (nextArrivalDay - (day:ℚ) - 1))
      | none => none
  let randDemand := demandNums.getD st.demandIdx 0
  match mapRandomToValue randDemand demandRows 100 with
  | none => .error "Demand random digit could not be mapped. Check tables."
  | some demandToday =>
      let s := settleBacklog inventory0 st.shortage
      let e := applyDemand s.1 s.2 demandToday
      invReview days invLimit leadRows leadNums cycle day st pending1 daysUntil0
        inventory0 randDemand demandToday e.1 e.2

/-- The inner day loop (`for day = 1..days`). -/
def invDays (days : ℕ) (invLimit : ℤ) (demandRows leadRows : List CumulativeRow)
    (demandNums leadNums : List ℤ) (cycle : ℕ) :
    ℕ → ℕ → InvState → Except String (List InvRow × InvState)
  | 0, _, st => .ok ([], st)
  | remaining+1, day, st =>
      match invDay days invLimit demandRows leadRows demandNums leadNums cycle day st with
      | .error e => .error e
      | .ok (row, st1) =>
          match invDays days invLimit demandRows leadRows demandNums leadNums cycle
              remaining (day+1) st1 with
          | .error e => .error e
          | .ok (rows, st2) => .ok (row :: rows, st2)

/-- The outer cycle loop (`for cycle = 1..cycles`). -/
def invCycles (days : ℕ) (invLimit : ℤ) (demandRows leadRows : List CumulativeRow)
    (demandNums leadNums : List ℤ) :
    ℕ → ℕ → InvState → Except String (List InvRow × InvState)
  | 0, _, st => .ok ([], st)
  | remaining+1, cycle, st =>
      match invDays days invLimit demandRows leadRows demandNums leadNums cycle
          days 1 st with
      | .error e => .error e
      | .ok (rows, st1) =>
          match invCycles days invLimit demandRows leadRows demandNums leadNums
              remaining (cycle+1) st1 with
          | .error e => .error e
          | .ok (rows2, st2) => .ok (rows ++ rows2, st2)

/-- The derived reorder point (lines 149-161):
`ceil(E[demand] * E[leadTime]) + 1`, with a fallback of 3 when a
distribution is empty. -/
def reorderPoint (demandDist leadDist : List DistRow) : ℤ :=
  if demandDist = [] ∨ leadDist = [] then 3
  else ⌈(demandDist.map (fun r => r.value * r.probability)).sum *
    (leadDist.map (fun r => r.value * r.probability)).sum⌉ + 1

/-- The pre-seeded initial order (lines 254-261): pushed only when both the
quantity and the lead time are strictly positive, arriving in cycle 1 on
day `lead + 1`. -/
def initialPending (initOrderQty initOrderLead : ℤ) : List PendingOrder :=
  if 0 < initOrderQty ∧ 0 < initOrderLead then
    [⟨(initOrderQty:ℚ), 1, (initOrderLead:ℚ) + 1⟩]
  else []

/-- The function `InventoryPage.runSimulation` (lines 191-406): validations, table
construction, digit checks, then the double loop over cycles and days. -/
def runInventory (demandDist leadDist : List DistRow) (cycles days : ℕ)
    (initInv invLimit initOrderQty initOrderLead : ℤ)
    (demandNums leadNums : List ℤ) : Except String (List InvRow) :=
  if cycles < 1 ∨ days < 1 then
    .error "Number of cycles and days per cycle must be at least 1"
  else if initInv < 0 then .error "Initial inventory must be non-negative"
  else if invLimit ≤ reorderPoint demandDist leadDist then
    .error "Inventory limit must be greater than reorder point"
  else if initOrderQty < 0 then .error "Initial order quantity must be non-negative"
  else if initOrderLead < 0 then .error "Initial order lead time must be non-negative"
  else
    match buildCumulative demandDist 100, buildCumulative leadDist 10 with
    | .error e, _ => .error ("Demand: " ++ e)
    | .ok _, .error e => .error ("Lead Time: " ++ e)
    | .ok demandRows, .ok leadRows =>
        if demandNums.length < cycles * days then
          .error ("Not enough demand random digits. Need " ++ toString (cycles * days) ++
            ", got " ++ toString demandNums.length)
        else if demandNums.any (fun d => decide (d < 1 ∨ 100 < d)) then
          .error "Demand random digits must be between 01 and 00 (i.e., 1 to 100)"
        else if leadNums.any (fun d => decide (d < 1 ∨ 10 < d)) then
          .error "Lead time random digits must be between 0 and 9 (i.e., 1 to 10 after conversion)"
        else
          (invCycles days invLimit demandRows leadRows demandNums leadNums cycles 1
            { inventory := (initInv:ℚ), shortage := 0,
              pending := initialPending initOrderQty initOrderLead,
              demandIdx := 0, leadIdx := 0 }).map Prod.fst

/-- Counterexample to claim C9 as stated: with quantity 5 and lead time 0
(both ≥ 0) the claim predicts a pending order arriving in cycle 1 on day
0 + 1 = 1, but the code injects nothing: the push requires both quantity
and lead time strictly positive. -/
theorem cexC9 :
    initialPending 5 0 = [] ∧
    initialPending 5 0 ≠ [⟨(5:ℚ), 1, (0:ℚ) + 1⟩] := by
  constructor
  · rw [initialPending, if_neg (by omega)]
  · rw [initialPending, if_neg (by omega)]
    simp

/-- Claim C9 (amended): the pre-seeded order is injected if and only if both
the initial quantity and the initial lead time are strictly positive; it then
arrives in cycle 1 on day lead + 1. A quantity of 0 or a lead time of 0 means
no stock in transit. -/
theorem initialPending_spec (initOrderQty initOrderLead : ℤ)
    (_hq : 0 ≤ initOrderQty) (_hl : 0 ≤ initOrderLead) :
    (0 < initOrderQty ∧ 0 < initOrderLead →
      initialPending initOrderQty initOrderLead =
        [⟨(initOrderQty:ℚ), 1, (initOrderLead:ℚ) + 1⟩]) ∧
    (initOrderQty = 0 ∨ initOrderLead = 0 →
      initialPending initOrderQty initOrderLead = []) := by
  constructor
  · intro h
    rw [initialPending, if_pos h]
  · intro h
    rw [initialPending, if_neg (by omega)]

theorem witC9 :
    ((0:ℤ) ≤ 2 ∧ (0:ℤ) ≤ 3) ∧
    ((0:ℤ) < 2 ∧ (0:ℤ) < 3 →
      initialPending 2 3 = [⟨((2:ℤ):ℚ), 1, ((3:ℤ):ℚ) + 1⟩]) ∧
    ((2:ℤ) = 0 ∨ (3:ℤ) = 0 → initialPending 2 3 = []) :=
  ⟨⟨by norm_num, by norm_num⟩,
    (initialPending_spec 2 3 (by norm_num) (by norm_num)).1,
    (initialPending_spec 2 3 (by norm_num) (by norm_num)).2⟩

/-- Case analysis of the periodic review step. -/
lemma invReview_spec (days : ℕ) (invLimit : ℤ) (leadRows : List CumulativeRow)
    (leadNums : List ℤ) (cycle day : ℕ) (st : InvState)
    (pending1 : List PendingOrder) (daysUntil0 : Option ℚ)
    (inventory0 : ℚ) (randDemand : ℤ) (demandToday endingInventory shortage : ℚ)
    (row : InvRow) (st2 : InvState)
    (hok : invReview days invLimit leadRows leadNums cycle day st pending1 daysUntil0
      inventory0 randDemand demandToday endingInventory shortage = .ok (row, st2)) :
    (row.endingInventory = endingInventory ∧ row.shortage = shortage ∧
      st2.inventory = endingInventory ∧ st2.shortage = shortage ∧
      st2.demandIdx = st.demandIdx + 1) ∧
    (row.orderQuantity.isSome ↔ day = days) ∧
    (day = days →
      row.orderQuantity = some ((invLimit:ℚ) - endingInventory + shortage)) ∧
    (day = days → ¬ st.leadIdx < leadNums.length →
      row.randLeadTime = none ∧ st2.pending = pending1 ∧ st2.leadIdx = st.leadIdx) ∧
    (∀ q : ℚ, row.orderQuantity = some q → 0 < q → st.leadIdx < leadNums.length →
      ∀ lead : ℚ,
        mapRandomToValue (leadNums.getD st.leadIdx 0) leadRows 10 = some lead →
        row.randLeadTime = some (leadNums.getD st.leadIdx 0) ∧
        st2.pending = pending1 ++
          [⟨q,
            ((⌈((((cycle:ℚ) - 1) * (days:ℚ) + (day:ℚ)) + lead + 1) / (days:ℚ)⌉ : ℤ) : ℚ),
            if jsMod ((((cycle:ℚ) - 1) * (days:ℚ) + (day:ℚ)) + lead + 1) (days:ℚ) = 0
            then (days:ℚ)
            else jsMod ((((cycle:ℚ) - 1) * (days:ℚ) + (day:ℚ)) + lead + 1) (days:ℚ)⟩]) := by
  rw [invReview] at hok
  by_cases hday : day = days
  · rw [if_pos hday] at hok
    dsimp only at hok
    by_cases hq0 : (0:ℚ) < (invLimit:ℚ) - endingInventory + shortage
    · rw [if_pos hq0] at hok
      by_cases hlen : st.leadIdx < leadNums.length
      · rw [if_pos hlen] at hok
        cases hlm : mapRandomToValue (leadNums.getD st.leadIdx 0) leadRows 10 with
        | none => rw [hlm] at hok; exact absurd hok (by simp)
        | some lead0 =>
            rw [hlm] at hok
            dsimp only at hok
            injection (Except.ok.inj hok) with hr hs
            subst hr hs
            refine ⟨⟨rfl, rfl, rfl, rfl, rfl⟩, by simp [hday], fun _ => rfl,
              fun _ hc => absurd hlen hc, fun q hq hqpos hlen2 lead hlead => ?_⟩
            injection hlead with hlead
            subst hlead
            have hq2 : (invLimit:ℚ) - endingInventory + shortage = q := by
              simpa using hq
            subst hq2
            exact ⟨rfl, rfl⟩
      · rw [if_neg hlen] at hok
        injection (Except.ok.inj hok) with hr hs
        subst hr hs
        exact ⟨⟨rfl, rfl, rfl, rfl, rfl⟩, by simp [hday], fun _ => rfl,
          fun _ _ => ⟨rfl, rfl, rfl⟩, fun q hq hqpos hlen2 => absurd hlen2 hlen⟩
    · rw [if_neg hq0] at hok
      injection (Except.ok.inj hok) with hr hs
      subst hr hs
      refine ⟨⟨rfl, rfl, rfl, rfl, rfl⟩, by simp [hday], fun _ => rfl,
        fun _ _ => ⟨rfl, rfl, rfl⟩, fun q hq hqpos hlen2 lead hlead => ?_⟩
      have hq2 : (invLimit:ℚ) - endingInventory + shortage = q := by
        simpa using hq
      subst hq2
      exact absurd hqpos hq0
  · rw [if_neg hday] at hok
    injection (Except.ok.inj hok) with hr hs
    subst hr hs
    exact ⟨⟨rfl, rfl, rfl, rfl, rfl⟩, by simp [hday], fun h => absurd h hday,
      fun h _ => absurd h hday, fun q hq => by simp at hq⟩

/-- Claim C5: a review occurs exactly on the last day of each cycle and
computes Q = inventoryLimit - endingInventory + accumulatedShortage; when
Q > 0 and a lead-time digit is available, the enqueued order arrives at
absolute day currentAbsoluteDay + leadTime + 1, converted to cycle
ceil(absDay / daysPerCycle) and day (absDay mod daysPerCycle, 0 mapped to
daysPerCycle). -/
theorem inventory_review (days : ℕ) (invLimit : ℤ)
    (demandRows leadRows : List CumulativeRow) (demandNums leadNums : List ℤ)
    (cycle day : ℕ) (st : InvState) (row : InvRow) (st2 : InvState)
    (hok : invDay days invLimit demandRows leadRows demandNums leadNums
      cycle day st = .ok (row, st2)) :
    (row.orderQuantity.isSome ↔ day = days) ∧
    (day = days →
      row.orderQuantity = some ((invLimit:ℚ) - row.endingInventory + row.shortage)) ∧
    (∀ q : ℚ, row.orderQuantity = some q → 0 < q → st.leadIdx < leadNums.length →
      ∀ lead : ℚ,
        mapRandomToValue (leadNums.getD st.leadIdx 0) leadRows 10 = some lead →
        row.randLeadTime = some (leadNums.getD st.leadIdx 0) ∧
        st2.pending = (st.pending.filter fun o => ! arrivesOn cycle day o) ++
          [⟨q,
            ((⌈((((cycle:ℚ) - 1) * (days:ℚ) + (day:ℚ)) + lead + 1) / (days:ℚ)⌉ : ℤ) : ℚ),
            if jsMod ((((cycle:ℚ) - 1) * (days:ℚ) + (day:ℚ)) + lead + 1) (days:ℚ) = 0
            then (days:ℚ)
            else jsMod ((((cycle:ℚ) - 1) * (days:ℚ) + (day:ℚ)) + lead + 1) (days:ℚ)⟩]) := by
  rw [invDay] at hok
  dsimp only at hok
  cases hm : mapRandomToValue (demandNums.getD st.demandIdx 0) demandRows 100 with
  | none => rw [hm] at hok; exact absurd hok (by simp)
  | some demandToday =>
      rw [hm] at hok
      dsimp only at hok
      have hspec := invReview_spec _ _ _ _ _ _ _ _ _ _ _ _ _ _ _ _ hok
      refine ⟨hspec.2.1, fun hday => ?_, hspec.2.2.2.2⟩
      have h2 := hspec.2.2.1 hday
      rw [hspec.1.1, hspec.1.2.1]
      exact h2

lemma invDay_example :
    invDay 1 5 [⟨1, 1, 1, 1, 100⟩] [⟨2, 1, 1, 1, 10⟩] [30] [4] 1 1
      ⟨3, 0, [], 0, 0⟩ =
      .ok (⟨1, 1, 3, 30, 1, 2, 0, some 3, some 4, some 2⟩,
        ⟨2, 0, [⟨3, 4, 1⟩], 1, 1⟩) := by
  have m30 : mapRandomToValue 30 [(⟨1, 1, 1, 1, 100⟩ : CumulativeRow)] 100 = some 1 := by
    decide
  have m4 : mapRandomToValue 4 [(⟨2, 1, 1, 1, 10⟩ : CumulativeRow)] 10 = some 2 := by
    decide
  rw [invDay]
  dsimp only
  norm_num
  rw [m30]
  dsimp only
  rw [invReview, if_pos rfl]
  norm_num [settleBacklog, applyDemand]
  rw [m4]
  dsimp only
  norm_num [jsMod, jsTrunc]

theorem witC5 :
    invDay 1 5 [⟨1, 1, 1, 1, 100⟩] [⟨2, 1, 1, 1, 10⟩] [30] [4] 1 1
      ⟨3, 0, [], 0, 0⟩ =
      .ok (⟨1, 1, 3, 30, 1, 2, 0, some 3, some 4, some 2⟩,
        ⟨2, 0, [⟨3, 4, 1⟩], 1, 1⟩) ∧
    ((⟨1, 1, 3, 30, 1, 2, 0, some 3, some 4, some 2⟩ : InvRow).orderQuantity.isSome ↔
      (1:ℕ) = 1) ∧
    ((⟨1, 1, 3, 30, 1, 2, 0, some 3, some 4, some 2⟩ : InvRow).orderQuantity =
      some (((5:ℤ):ℚ) -
        (⟨1, 1, 3, 30, 1, 2, 0, some 3, some 4, some 2⟩ : InvRow).endingInventory +
        (⟨1, 1, 3, 30, 1, 2, 0, some 3, some 4, some 2⟩ : InvRow).shortage)) ∧
    ((⟨1, 1, 3, 30, 1, 2, 0, some 3, some 4, some 2⟩ : InvRow).randLeadTime =
      some (([4] : List ℤ).getD 0 0) ∧
      (⟨2, 0, [⟨3, 4, 1⟩], 1, 1⟩ : InvState).pending =
        ((InvState.mk 3 0 [] 0 0).pending.filter fun o => ! arrivesOn 1 1 o) ++
          [⟨3, ((⌈((((1:ℚ) - 1) * ((1:ℕ):ℚ) + ((1:ℕ):ℚ)) + 2 + 1) / ((1:ℕ):ℚ)⌉ : ℤ) : ℚ),
            if jsMod ((((1:ℚ) - 1) * ((1:ℕ):ℚ) + ((1:ℕ):ℚ)) + 2 + 1) ((1:ℕ):ℚ) = 0
            then ((1:ℕ):ℚ)
            else jsMod ((((1:ℚ) - 1) * ((1:ℕ):ℚ) + ((1:ℕ):ℚ)) + 2 + 1) ((1:ℕ):ℚ)⟩]) := by
  have h := inventory_review 1 5 [⟨1, 1, 1, 1, 100⟩] [⟨2, 1, 1, 1, 10⟩] [30] [4] 1 1
    ⟨3, 0, [], 0, 0⟩ _ _ invDay_example
  exact ⟨invDay_example, h.1, h.2.1 rfl,
    h.2.2 3 rfl (by norm_num) (by norm_num) 2 (by decide)⟩

/-- After settlement and demand, a day never ends with both stock on hand
and a positive backlog. -/
lemma settle_apply_inv (inventory0 shortage0 demandToday : ℚ)
    (hs : 0 ≤ shortage0) (hd : 0 ≤ demandToday) :
    ((applyDemand (settleBacklog inventory0 shortage0).1
        (settleBacklog inventory0 shortage0).2 demandToday).1 = 0 ∨
      (applyDemand (settleBacklog inventory0 shortage0).1
        (settleBacklog inventory0 shortage0).2 demandToday).2 = 0) ∧
    0 ≤ (applyDemand (settleBacklog inventory0 shortage0).1
        (settleBacklog inventory0 shortage0).2 demandToday).2 := by
  unfold settleBacklog applyDemand
  by_cases h1 : 0 < shortage0
  · by_cases h2 : shortage0 ≤ inventory0
    · rw [if_pos h1, if_pos h2]
      dsimp only
      by_cases h3 : demandToday ≤ inventory0 - shortage0
      · rw [if_pos h3]
        exact ⟨Or.inr rfl, le_refl 0⟩
      · rw [if_neg h3]
        dsimp only
        exact ⟨Or.inl rfl, by linarith⟩
    · rw [if_pos h1, if_neg h2]
      dsimp only
      by_cases h3 : demandToday ≤ 0
      · rw [if_pos h3]
        dsimp only
        have hd0 : demandToday = 0 := le_antisymm h3 hd
        exact ⟨Or.inl (by rw [hd0, sub_zero]), by linarith⟩
      · rw [if_neg h3]
        dsimp only
        exact ⟨Or.inl rfl, by linarith⟩
  · rw [if_neg h1]
    dsimp only
    have hs0 : shortage0 = 0 := le_antisymm (not_lt.mp h1) hs
    by_cases h3 : demandToday ≤ inventory0
    · rw [if_pos h3]
      exact ⟨Or.inr hs0, by rw [hs0]⟩
    · rw [if_neg h3]
      dsimp only
      exact ⟨Or.inl rfl, by rw [hs0]; linarith⟩

lemma mapRandomToValue_mem (rand : ℤ) (rows : List CumulativeRow) (scale : ℤ) (v : ℚ)
    (h : mapRandomToValue rand rows scale = some v) : v ∈ rows.map (·.value) := by
  rw [mapRandomToValue] at h
  cases hf : rows.find? fun r =>
      decide (r.rangeStart ≤ (if rand = 0 then scale else rand) ∧
        (if rand = 0 then scale else rand) ≤ r.rangeEnd) with
  | none => rw [hf] at h; simp at h
  | some r =>
      rw [hf] at h
      simp only [Option.map_some'] at h
      injection h with h
      subst h
      exact List.mem_map_of_mem _ (List.mem_of_find?_eq_some hf)

lemma assignRanges_map_value (scale : ℤ) (pairs : List (DistRow × ℚ)) :
    ∀ prevEnd, (assignRanges scale prevEnd pairs).map (·.value) =
      pairs.map (fun p => p.1.value) := by
  induction pairs with
  | nil => intro prevEnd; rfl
  | cons p ps ih =>
      intro prevEnd
      obtain ⟨r, c⟩ := p
      rw [assignRanges, List.map_cons, ih, List.map_cons]

lemma cumulativeSums_map_fst (dist : List DistRow) :
    ∀ acc, (cumulativeSums acc dist).map Prod.fst = dist := by
  induction dist with
  | nil => intro acc; rfl
  | cons r rs ih => intro acc; rw [cumulativeSums, List.map_cons, ih]

/-- The values of a built cumulative table are exactly the distribution
values. -/
lemma buildCumulative_map_value (dist : List DistRow) (scale : ℤ)
    (rows : List CumulativeRow) (hok : buildCumulative dist scale = .ok rows) :
    rows.map (·.value) = dist.map (·.value) := by
  obtain ⟨hd, htol, hrows⟩ := buildCumulative_ok dist scale rows hok
  rw [hrows, assignRanges_map_value]
  have : (cumulativeSums 0 dist).map (fun p => p.1.value) =
      ((cumulativeSums 0 dist).map Prod.fst).map (·.value) := by
    rw [List.map_map]
    rfl
  rw [this, cumulativeSums_map_fst]

/-- Day-level invariant for claim C10. -/
lemma invDay_inv (days : ℕ) (invLimit : ℤ)
    (demandRows leadRows : List CumulativeRow) (demandNums leadNums : List ℤ)
    (cycle day : ℕ) (st : InvState) (row : InvRow) (st2 : InvState)
    (hvals : ∀ v ∈ demandRows.map (·.value), 0 ≤ v)
    (hs : 0 ≤ st.shortage)
    (hok : invDay days invLimit demandRows leadRows demandNums leadNums
      cycle day st = .ok (row, st2)) :
    (row.endingInventory = 0 ∨ row.shortage = 0) ∧ 0 ≤ st2.shortage := by
  rw [invDay] at hok
  dsimp only at hok
  cases hm : mapRandomToValue (demandNums.getD st.demandIdx 0) demandRows 100 with
  | none => rw [hm] at hok; exact absurd hok (by simp)
  | some demandToday =>
      rw [hm] at hok
      dsimp only at hok
      have hdv : 0 ≤ demandToday := hvals _ (mapRandomToValue_mem _ _ _ _ hm)
      have hspec := invReview_spec _ _ _ _ _ _ _ _ _ _ _ _ _ _ _ _ hok
      have hinv := settle_apply_inv
        (st.inventory + ((st.pending.filter (arrivesOn cycle day)).map (·.quantity)).sum)
        st.shortage demandToday hs hdv
      constructor
      · rw [hspec.1.1, hspec.1.2.1]
        exact hinv.1
      · rw [hspec.1.2.2.2.1]
        exact hinv.2

lemma invDays_inv (days : ℕ) (invLimit : ℤ)
    (demandRows leadRows : List CumulativeRow) (demandNums leadNums : List ℤ)
    (cycle : ℕ) (hvals : ∀ v ∈ demandRows.map (·.value), 0 ≤ v) :
    ∀ (remaining day : ℕ) (st : InvState) (rows : List InvRow) (st2 : InvState),
      0 ≤ st.shortage →
      invDays days invLimit demandRows leadRows demandNums leadNums cycle
        remaining day st = .ok (rows, st2) →
      (∀ r ∈ rows, r.endingInventory = 0 ∨ r.shortage = 0) ∧ 0 ≤ st2.shortage := by
  intro remaining
  induction remaining with
  | zero =>
      intro day st rows st2 hs hok
      rw [invDays] at hok
      injection (Except.ok.inj hok) with hr hs2
      subst hr hs2
      exact ⟨by simp, hs⟩
  | succ n ih =>
      intro day st rows st2 hs hok
      rw [invDays] at hok
      cases hd : invDay days invLimit demandRows leadRows demandNums leadNums
          cycle day st with
      | error e => rw [hd] at hok; exact absurd hok (by simp)
      | ok rs1 =>
          obtain ⟨row, st1⟩ := rs1
          rw [hd] at hok
          dsimp only at hok
          cases hrest : invDays days invLimit demandRows leadRows demandNums leadNums
              cycle n (day+1) st1 with
          | error e => rw [hrest] at hok; exact absurd hok (by simp)
          | ok rs2 =>
              obtain ⟨rows2, st3⟩ := rs2
              rw [hrest] at hok
              dsimp only at hok
              injection (Except.ok.inj hok) with hr hs2
              subst hr hs2
              have hday := invDay_inv days invLimit demandRows leadRows demandNums
                leadNums cycle day st row st1 hvals hs hd
              have hrest2 := ih (day+1) st1 rows2 st3 hday.2 hrest
              refine ⟨fun r hr => ?_, hrest2.2⟩
              rcases List.mem_cons.mp hr with hr | hr
              · subst hr; exact hday.1
              · exact hrest2.1 r hr

lemma invCycles_inv (days : ℕ) (invLimit : ℤ)
    (demandRows leadRows : List CumulativeRow) (demandNums leadNums : List ℤ)
    (hvals : ∀ v ∈ demandRows.map (·.value), 0 ≤ v) :
    ∀ (remaining cycle : ℕ) (st : InvState) (rows : List InvRow) (st2 : InvState),
      0 ≤ st.shortage →
      invCycles days invLimit demandRows leadRows demandNums leadNums
        remaining cycle st = .ok (rows, st2) →
      (∀ r ∈ rows, r.endingInventory = 0 ∨ r.shortage = 0) ∧ 0 ≤ st2.shortage := by
  intro remaining
  induction remaining with
  | zero =>
      intro cycle st rows st2 hs hok
      rw [invCycles] at hok
      injection (Except.ok.inj hok) with hr hs2
      subst hr hs2
      exact ⟨by simp, hs⟩
  | succ n ih =>
      intro cycle st rows st2 hs hok
      rw [invCycles] at hok
      cases hd : invDays days invLimit demandRows leadRows demandNums leadNums
          cycle days 1 st with
      | error e => rw [hd] at hok; exact absurd hok (by simp)
      | ok rs1 =>
          obtain ⟨rows1, st1⟩ := rs1
          rw [hd] at hok
          dsimp only at hok
          cases hrest : invCycles days invLimit demandRows leadRows demandNums leadNums
              n (cycle+1) st1 with
          | error e => rw [hrest] at hok; exact absurd hok (by simp)
          | ok rs2 =>
              obtain ⟨rows2, st3⟩ := rs2
              rw [hrest] at hok
              dsimp only at hok
              injection (Except.ok.inj hok) with hr hs2
              subst hr hs2
              have hdays := invDays_inv days invLimit demandRows leadRows demandNums
                leadNums cycle hvals days 1 st rows1 st1 hs hd
              have hrest2 := ih (cycle+1) st1 rows2 st3 hdays.2 hrest
              refine ⟨fun r hr => ?_, hrest2.2⟩
              rcases List.mem_append.mp hr with hr | hr
              · exact hdays.1 r hr
              · exact hrest2.1 r hr

/-- Claim C10: in every successful inventory run whose demand distribution
has nonnegative values, each ledger row ends with no stock on hand or no
backlog: endingInventory = 0 or shortage = 0, never both positive. -/
theorem inventory_no_stock_and_backlog (demandDist leadDist : List DistRow)
    (cycles days : ℕ) (initInv invLimit initOrderQty initOrderLead : ℤ)
    (demandNums leadNums : List ℤ) (rows : List InvRow)
    (hvals : ∀ r ∈ demandDist, 0 ≤ r.value)
    (hok : runInventory demandDist leadDist cycles days initInv invLimit
      initOrderQty initOrderLead demandNums leadNums = .ok rows) :
    ∀ r ∈ rows, r.endingInventory = 0 ∨ r.shortage = 0 := by
  rw [runInventory] at hok
  by_cases h1 : cycles < 1 ∨ days < 1
  · rw [if_pos h1] at hok; exact absurd hok (by simp)
  rw [if_neg h1] at hok
  by_cases h2 : initInv < 0
  · rw [if_pos h2] at hok; exact absurd hok (by simp)
  rw [if_neg h2] at hok
  by_cases h3 : invLimit ≤ reorderPoint demandDist leadDist
  · rw [if_pos h3] at hok; exact absurd hok (by simp)
  rw [if_neg h3] at hok
  by_cases h4 : initOrderQty < 0
  · rw [if_pos h4] at hok; exact absurd hok (by simp)
  rw [if_neg h4] at hok
  by_cases h5 : initOrderLead < 0
  · rw [if_pos h5] at hok; exact absurd hok (by simp)
  rw [if_neg h5] at hok
  cases hdr : buildCumulative demandDist 100 with
  | error e => rw [hdr] at hok; exact absurd hok (by simp)
  | ok demandRows =>
  cases hlr : buildCumulative leadDist 10 with
  | error e => rw [hdr, hlr] at hok; exact absurd hok (by simp)
  | ok leadRows =>
      rw [hdr, hlr] at hok
      dsimp only at hok
      by_cases h6 : demandNums.length < cycles * days
      · rw [if_pos h6] at hok; exact absurd hok (by simp)
      rw [if_neg h6] at hok
      by_cases h7 : (demandNums.any fun d => decide (d < 1 ∨ 100 < d)) = true
      · rw [if_pos h7] at hok; exact absurd hok (by simp)
      rw [if_neg h7] at hok
      by_cases h8 : (leadNums.any fun d => decide (d < 1 ∨ 10 < d)) = true
      · rw [if_pos h8] at hok; exact absurd hok (by simp)
      rw [if_neg h8] at hok
      cases hrun : invCycles days invLimit demandRows leadRows demandNums leadNums
          cycles 1 (InvState.mk (initInv:ℚ) 0
            (initialPending initOrderQty initOrderLead) 0 0) with
      | error e => rw [hrun] at hok; exact absurd hok (by simp [Except.map])
      | ok rs =>
          obtain ⟨rows1, st2⟩ := rs
          rw [hrun] at hok
          simp only [Except.map] at hok
          obtain rfl := Except.ok.inj hok
          have hvals2 : ∀ v ∈ demandRows.map (·.value), 0 ≤ v := by
            rw [buildCumulative_map_value demandDist 100 demandRows hdr]
            intro v hv
            obtain ⟨r, hr, rfl⟩ := List.mem_map.mp hv
            exact hvals r hr
          exact (invCycles_inv days invLimit demandRows leadRows demandNums leadNums
            hvals2 cycles 1 _ rows1 st2 (le_refl 0) hrun).1

lemma buildCumulative_demand_example :
    buildCumulative [(⟨1, 1⟩ : DistRow)] 100 = .ok [⟨1, 1, 1, 1, 100⟩] := by
  have e1 : endOf 100 ((0:ℚ) + 1) = 100 := by apply endOf_eval <;> norm_num
  rw [buildCumulative, if_neg (by simp)]
  simp only [List.map_cons, List.map_nil, List.sum_cons, List.sum_nil]
  rw [if_pos (by norm_num [tolerance])]
  simp only [cumulativeSums, assignRanges, e1]
  norm_num

lemma buildCumulative_lead_example :
    buildCumulative [(⟨2, 1⟩ : DistRow)] 10 = .ok [⟨2, 1, 1, 1, 10⟩] := by
  have e1 : endOf 10 ((0:ℚ) + 1) = 10 := by apply endOf_eval <;> norm_num
  rw [buildCumulative, if_neg (by simp)]
  simp only [List.map_cons, List.map_nil, List.sum_cons, List.sum_nil]
  rw [if_pos (by norm_num [tolerance])]
  simp only [cumulativeSums, assignRanges, e1]
  norm_num

lemma reorderPoint_example : reorderPoint [⟨1, 1⟩] [⟨2, 1⟩] = 3 := by
  rw [reorderPoint, if_neg (by simp)]
  simp only [List.map_cons, List.map_nil, List.sum_cons, List.sum_nil]
  norm_num

lemma runInventory_example :
    runInventory [⟨1, 1⟩] [⟨2, 1⟩] 1 1 3 5 0 0 [30] [4] =
      .ok [⟨1, 1, 3, 30, 1, 2, 0, some 3, some 4, some 2⟩] := by
  rw [runInventory, if_neg (by omega), if_neg (by omega),
    if_neg (by rw [reorderPoint_example]; omega), if_neg (by omega), if_neg (by omega),
    buildCumulative_demand_example, buildCumulative_lead_example]
  dsimp only
  rw [if_neg (by norm_num), if_neg (by decide), if_neg (by decide)]
  have hst : (InvState.mk ((3:ℤ):ℚ) 0 (initialPending 0 0) 0 0) =
      (InvState.mk (3:ℚ) 0 [] 0 0) := by
    rw [initialPending, if_neg (by omega)]
    norm_num
  rw [hst, invCycles, invDays, invDay_example]
  dsimp only
  rw [invDays]
  dsimp only
  rw [invCycles]
  dsimp only [Except.map]
  rw [List.append_nil]

theorem witC10 :
    (∀ r ∈ ([⟨1, 1⟩] : List DistRow), 0 ≤ r.value) ∧
    runInventory [⟨1, 1⟩] [⟨2, 1⟩] 1 1 3 5 0 0 [30] [4] =
      .ok [⟨1, 1, 3, 30, 1, 2, 0, some 3, some 4, some 2⟩] ∧
    ∀ r ∈ ([⟨1, 1, 3, 30, 1, 2, 0, some 3, some 4, some 2⟩] : List InvRow),
      r.endingInventory = 0 ∨ r.shortage = 0 :=
  ⟨by norm_num, runInventory_example,
    inventory_no_stock_and_backlog [⟨1, 1⟩] [⟨2, 1⟩] 1 1 3 5 0 0 [30] [4] _
      (by norm_num) runInventory_example⟩

lemma getD_mem (l : List ℤ) (i : ℕ) (d : ℤ) (h : i < l.length) : l.getD i d ∈ l := by
  induction l generalizing i with
  | nil => simp at h
  | cons a as ih =>
      cases i with
      | zero => simp [List.getD]
      | succ j =>
          simp only [List.getD_cons_succ]
          exact List.mem_cons_of_mem _ (ih j (by simpa using h))

lemma invReview_isOk (days : ℕ) (invLimit : ℤ) (leadRows : List CumulativeRow)
    (leadNums : List ℤ) (cycle day : ℕ) (st : InvState)
    (pending1 : List PendingOrder) (daysUntil0 : Option ℚ)
    (inventory0 : ℚ) (randDemand : ℤ) (demandToday endingInventory shortage : ℚ)
    (hlm : st.leadIdx < leadNums.length →
      (mapRandomToValue (leadNums.getD st.leadIdx 0) leadRows 10).isSome) :
    ∃ row st2,
      invReview days invLimit leadRows leadNums cycle day st pending1 daysUntil0
        inventory0 randDemand demandToday endingInventory shortage = .ok (row, st2) ∧
      st2.demandIdx = st.demandIdx + 1 := by
  rw [invReview]
  by_cases hday : day = days
  · rw [if_pos hday]
    dsimp only
    by_cases hq0 : (0:ℚ) < (invLimit:ℚ) - endingInventory + shortage
    · rw [if_pos hq0]
      by_cases hlen : st.leadIdx < leadNums.length
      · rw [if_pos hlen]
        obtain ⟨lead, hlead⟩ := Option.isSome_iff_exists.mp (hlm hlen)
        rw [hlead]
        exact ⟨_, _, rfl, rfl⟩
      · rw [if_neg hlen]
        exact ⟨_, _, rfl, rfl⟩
    · rw [if_neg hq0]
      exact ⟨_, _, rfl, rfl⟩
  · rw [if_neg hday]
    exact ⟨_, _, rfl, rfl⟩

lemma invDay_isOk (days : ℕ) (invLimit : ℤ)
    (demandRows leadRows : List CumulativeRow) (demandNums leadNums : List ℤ)
    (cycle day : ℕ) (st : InvState)
    (hdm : (mapRandomToValue (demandNums.getD st.demandIdx 0) demandRows 100).isSome)
    (hlm : st.leadIdx < leadNums.length →
      (mapRandomToValue (leadNums.getD st.leadIdx 0) leadRows 10).isSome) :
    ∃ row st2,
      invDay days invLimit demandRows leadRows demandNums leadNums cycle day st =
        .ok (row, st2) ∧ st2.demandIdx = st.demandIdx + 1 := by
  rw [invDay]
  dsimp only
  obtain ⟨d, hd⟩ := Option.isSome_iff_exists.mp hdm
  rw [hd]
  dsimp only
  exact invReview_isOk _ _ _ _ _ _ _ _ _ _ _ _ _ _ hlm

lemma invDays_ok (days : ℕ) (invLimit : ℤ)
    (demandRows leadRows : List CumulativeRow) (demandNums leadNums : List ℤ)
    (cycle : ℕ)
    (hdall : ∀ d ∈ demandNums, (mapRandomToValue d demandRows 100).isSome)
    (hlall : ∀ d ∈ leadNums, (mapRandomToValue d leadRows 10).isSome) :
    ∀ (remaining day : ℕ) (st : InvState),
      st.demandIdx + remaining ≤ demandNums.length →
      ∃ rows st2,
        invDays days invLimit demandRows leadRows demandNums leadNums cycle
          remaining day st = .ok (rows, st2) ∧
        st2.demandIdx = st.demandIdx + remaining ∧ rows.length = remaining := by
  intro remaining
  induction remaining with
  | zero =>
      intro day st _
      exact ⟨[], st, rfl, rfl, rfl⟩
  | succ n ih =>
      intro day st hidx
      obtain ⟨row, st1, hday, hdi⟩ :=
        invDay_isOk days invLimit demandRows leadRows demandNums leadNums cycle day st
          (hdall _ (getD_mem demandNums st.demandIdx 0 (by omega)))
          (fun hlen => hlall _ (getD_mem leadNums st.leadIdx 0 hlen))
      obtain ⟨rows2, st2, hrest, hdi2, hlen2⟩ := ih (day+1) st1 (by omega)
      refine ⟨row :: rows2, st2, ?_, by omega, by simp [hlen2]⟩
      rw [invDays, hday]
      dsimp only
      rw [hrest]

lemma invCycles_ok (days : ℕ) (invLimit : ℤ)
    (demandRows leadRows : List CumulativeRow) (demandNums leadNums : List ℤ)
    (hdall : ∀ d ∈ demandNums, (mapRandomToValue d demandRows 100).isSome)
    (hlall : ∀ d ∈ leadNums, (mapRandomToValue d leadRows 10).isSome) :
    ∀ (remaining cycle : ℕ) (st : InvState),
      st.demandIdx + remaining * days ≤ demandNums.length →
      ∃ rows st2,
        invCycles days invLimit demandRows leadRows demandNums leadNums
          remaining cycle st = .ok (rows, st2) ∧
        st2.demandIdx = st.demandIdx + remaining * days ∧
        rows.length = remaining * days := by
  intro remaining
  induction remaining with
  | zero =>
      intro cycle st _
      exact ⟨[], st, rfl, by simp, by simp⟩
  | succ n ih =>
      intro cycle st hidx
      obtain ⟨rows1, st1, hdays, hdi1, hlen1⟩ :=
        invDays_ok days invLimit demandRows leadRows demandNums leadNums cycle
          hdall hlall days 1 st (by
            have : (n + 1) * days = n * days + days := by ring
            omega)
      obtain ⟨rows2, st2, hrest, hdi2, hlen2⟩ := ih (cycle+1) st1 (by
        have : (n + 1) * days = n * days + days := by ring
        omega)
      refine ⟨rows1 ++ rows2, st2, ?_, by
          have : (n + 1) * days = n * days + days := by ring
          omega, by
          have : (n + 1) * days = n * days + days := by ring
          simp [hlen1, hlen2]
          omega⟩
      rw [invCycles, hdays]
      dsimp only
      rw [hrest]

/-- Claim C8: an insufficient demand-digit stream is rejected before any
ledger row is produced (the whole run fails with an error), while
exhaustion of the lead-time digit stream is non-fatal: the run still
completes with all cycles * days rows (for any lead digit stream, however
short), and at a review with no lead digit left the order is simply not
enqueued and no error is raised. -/
theorem inventory_digit_exhaustion (demandDist leadDist : List DistRow)
    (cycles days : ℕ) (initInv invLimit initOrderQty initOrderLead : ℤ)
    (demandNums leadNums : List ℤ) (demandRows leadRows : List CumulativeRow)
    (h1 : 1 ≤ cycles) (h2 : 1 ≤ days) (h3 : 0 ≤ initInv)
    (h4 : reorderPoint demandDist leadDist < invLimit)
    (h5 : 0 ≤ initOrderQty) (h6 : 0 ≤ initOrderLead)
    (hdr : buildCumulative demandDist 100 = .ok demandRows)
    (hlr : buildCumulative leadDist 10 = .ok leadRows)
    (hdig : ∀ d ∈ demandNums, 1 ≤ d ∧ d ≤ 100)
    (hldig : ∀ d ∈ leadNums, 1 ≤ d ∧ d ≤ 10)
    (hdall : ∀ d ∈ demandNums, (mapRandomToValue d demandRows 100).isSome)
    (hlall : ∀ d ∈ leadNums, (mapRandomToValue d leadRows 10).isSome) :
    (demandNums.length < cycles * days →
      runInventory demandDist leadDist cycles days initInv invLimit initOrderQty
        initOrderLead demandNums leadNums =
        .error ("Not enough demand random digits. Need " ++ toString (cycles * days) ++
          ", got " ++ toString demandNums.length)) ∧
    (cycles * days ≤ demandNums.length →
      ∃ rows, runInventory demandDist leadDist cycles days initInv invLimit initOrderQty
          initOrderLead demandNums leadNums = .ok rows ∧
        rows.length = cycles * days) ∧
    (∀ (cycle day : ℕ) (st : InvState) (row : InvRow) (st2 : InvState),
      invDay days invLimit demandRows leadRows demandNums leadNums cycle day st =
        .ok (row, st2) →
      day = days → leadNums.length ≤ st.leadIdx →
      row.randLeadTime = none ∧
      st2.pending = st.pending.filter (fun o => ! arrivesOn cycle day o) ∧
      st2.leadIdx = st.leadIdx) := by
  have hany1 : ¬ ((demandNums.any fun d => decide (d < 1 ∨ 100 < d)) = true) := by
    simp only [List.any_eq_true, decide_eq_true_eq, not_exists, not_or, not_and]
    intro d hd
    have := hdig d hd
    omega
  have hany2 : ¬ ((leadNums.any fun d => decide (d < 1 ∨ 10 < d)) = true) := by
    simp only [List.any_eq_true, decide_eq_true_eq, not_exists, not_or, not_and]
    intro d hd
    have := hldig d hd
    omega
  refine ⟨fun hlen => ?_, fun hlen => ?_, fun cycle day st row st2 hok hday hlex => ?_⟩
  · rw [runInventory, if_neg (by omega), if_neg (by omega), if_neg (by omega),
      if_neg (by omega), if_neg (by omega), hdr, hlr]
    dsimp only
    rw [if_pos hlen]
  · rw [runInventory, if_neg (by omega), if_neg (by omega), if_neg (by omega),
      if_neg (by omega), if_neg (by omega), hdr, hlr]
    dsimp only
    rw [if_neg (not_lt.mpr hlen), if_neg hany1, if_neg hany2]
    obtain ⟨rows1, st2, hrun, _, hlen1⟩ :=
      invCycles_ok days invLimit demandRows leadRows demandNums leadNums hdall hlall
        cycles 1 (InvState.mk (initInv:ℚ) 0
          (initialPending initOrderQty initOrderLead) 0 0)
        (by show 0 + cycles * days ≤ demandNums.length; omega)
    refine ⟨rows1, ?_, hlen1⟩
    rw [hrun]
    rfl
  · rw [invDay] at hok
    dsimp only at hok
    cases hm : mapRandomToValue (demandNums.getD st.demandIdx 0) demandRows 100 with
    | none => rw [hm] at hok; exact absurd hok (by simp)
    | some demandToday =>
        rw [hm] at hok
        dsimp only at hok
        have hspec := invReview_spec _ _ _ _ _ _ _ _ _ _ _ _ _ _ _ _ hok
        exact hspec.2.2.2.1 hday (not_lt.mpr hlex)

lemma invDay_example2 :
    invDay 1 5 [⟨1, 1, 1, 1, 100⟩] [⟨2, 1, 1, 1, 10⟩] [30] [] 1 1
      ⟨3, 0, [], 0, 0⟩ =
      .ok (⟨1, 1, 3, 30, 1, 2, 0, some 3, none, none⟩, ⟨2, 0, [], 1, 0⟩) := by
  have m30 : mapRandomToValue 30 [(⟨1, 1, 1, 1, 100⟩ : CumulativeRow)] 100 = some 1 := by
    decide
  rw [invDay]
  dsimp only
  norm_num
  rw [m30]
  dsimp only
  rw [invReview, if_pos rfl]
  norm_num [settleBacklog, applyDemand]

theorem witC8 :
    (([] : List ℤ).length < 1 * 1 ∧
      runInventory [⟨1, 1⟩] [⟨2, 1⟩] 1 1 3 5 0 0 [] [] =
        .error ("Not enough demand random digits. Need " ++ toString (1 * 1) ++
          ", got " ++ toString ([] : List ℤ).length)) ∧
    (1 * 1 ≤ ([30] : List ℤ).length ∧
      ∃ rows, runInventory [⟨1, 1⟩] [⟨2, 1⟩] 1 1 3 5 0 0 [30] [] = .ok rows ∧
        rows.length = 1 * 1) ∧
    (invDay 1 5 [⟨1, 1, 1, 1, 100⟩] [⟨2, 1, 1, 1, 10⟩] [30] [] 1 1 ⟨3, 0, [], 0, 0⟩ =
        .ok (⟨1, 1, 3, 30, 1, 2, 0, some 3, none, none⟩, ⟨2, 0, [], 1, 0⟩) ∧
      (⟨1, 1, 3, 30, 1, 2, 0, some 3, none, none⟩ : InvRow).randLeadTime = none ∧
      (⟨2, 0, [], 1, 0⟩ : InvState).pending =
        (InvState.mk 3 0 [] 0 0).pending.filter (fun o => ! arrivesOn 1 1 o) ∧
      (⟨2, 0, [], 1, 0⟩ : InvState).leadIdx = (InvState.mk 3 0 [] 0 0).leadIdx) := by
  have t1 := inventory_digit_exhaustion [⟨1, 1⟩] [⟨2, 1⟩] 1 1 3 5 0 0 [] []
    [⟨1, 1, 1, 1, 100⟩] [⟨2, 1, 1, 1, 10⟩] (by norm_num) (by norm_num) (by norm_num)
    (by rw [reorderPoint_example]; norm_num) (by norm_num) (by norm_num)
    buildCumulative_demand_example buildCumulative_lead_example
    (by simp) (by simp) (by simp) (by simp)
  have t2 := inventory_digit_exhaustion [⟨1, 1⟩] [⟨2, 1⟩] 1 1 3 5 0 0 [30] []
    [⟨1, 1, 1, 1, 100⟩] [⟨2, 1, 1, 1, 10⟩] (by norm_num) (by norm_num) (by norm_num)
    (by rw [reorderPoint_example]; norm_num) (by norm_num) (by norm_num)
    buildCumulative_demand_example buildCumulative_lead_example
    (by intro d hd; simp at hd; omega) (by simp)
    (by intro d hd; simp at hd; subst hd; decide) (by simp)
  refine ⟨⟨by norm_num, t1.1 (by norm_num)⟩, ⟨by norm_num, t2.2.1 (by norm_num)⟩,
    invDay_example2, ?_⟩
  exact t2.2.2 1 1 ⟨3, 0, [], 0, 0⟩ _ _ invDay_example2 rfl (by norm_num)

/-- The probit (inverse normal CDF) approximation `getNormInverse` from the
statistics file (lines 3-52): Acklam-style rational approximation with
three regimes. -/
noncomputable def getNormInverse (p : ℝ) : ℝ :=
  let a1 : ℝ := -39.69683028665376
  let a2 : ℝ := 220.9460984245205
  let a3 : ℝ := -275.9285104469687
  let a4 : ℝ := 138.3577518672690
  let a5 : ℝ := -30.66479806614716
  let a6 : ℝ := 2.506628277459239
  let b1 : ℝ := -54.47609879822406
  let b2 : ℝ := 161.5858368580409
  let b3 : ℝ := -155.6989798598866
  let b4 : ℝ := 66.80131188771972
  let b5 : ℝ := -13.28068155288572
  let c1 : ℝ := -0.007784894002430293
  let c2 : ℝ := -0.3223964580411365
  let c3 : ℝ := -2.400758277161838
  let c4 : ℝ := -2.549732539343734
  let c5 : ℝ := 4.374664141464968
  let c6 : ℝ := 2.938163982698783
  let d1 : ℝ := 0.007784695709041462
  let d2 : ℝ := 0.3224671290700398
  let d3 : ℝ := 2.445134137142996
  let d4 : ℝ := 3.754408661907416
  let p_low : ℝ := 0.02425
  let p_high : ℝ := 1 - p_low
  if p < p_low then
    (let q := Real.sqrt (-2 * Real.log p);
      (((((c1 * q + c2) * q + c3) * q + c4) * q + c5) * q + c6) /
        ((((d1 * q + d2) * q + d3) * q + d4) * q + 1))
  else if p > p_high then
    (let q := Real.sqrt (-2 * Real.log (1 - p));
      (-(((((c1 * q + c2) * q + c3) * q + c4) * q + c5) * q + c6)) /
        ((((d1 * q + d2) * q + d3) * q + d4) * q + 1))
  else
    (let q := p - 0.5;
      let r := q * q;
      (((((a1 * r + a2) * r + a3) * r + a4) * r + a5) * r + a6) * q /
        (((((b1 * r + b2) * r + b3) * r + b4) * r + b5) * r + 1))

/-- The tail-low regime of the Acklam approximation, as the specification
describes it (used for p < 0.02425). -/
noncomputable def acklamTailLow (p : ℝ) : ℝ :=
  let c1 : ℝ := -0.007784894002430293
  let c2 : ℝ := -0.3223964580411365
  let c3 : ℝ := -2.400758277161838
  let c4 : ℝ := -2.549732539343734
  let c5 : ℝ := 4.374664141464968
  let c6 : ℝ := 2.938163982698783
  let d1 : ℝ := 0.007784695709041462
  let d2 : ℝ := 0.3224671290700398
  let d3 : ℝ := 2.445134137142996
  let d4 : ℝ := 3.754408661907416
  let q := Real.sqrt (-2 * Real.log p)
  (((((c1 * q + c2) * q + c3) * q + c4) * q + c5) * q + c6) /
    ((((d1 * q + d2) * q + d3) * q + d4) * q + 1)

/-- The tail-high regime of the Acklam approximation (used for p > 0.97575). -/
noncomputable def acklamTailHigh (p : ℝ) : ℝ :=
  let c1 : ℝ := -0.007784894002430293
  let c2 : ℝ := -0.3223964580411365
  let c3 : ℝ := -2.400758277161838
  let c4 : ℝ := -2.549732539343734
  let c5 : ℝ := 4.374664141464968
  let c6 : ℝ := 2.938163982698783
  let d1 : ℝ := 0.007784695709041462
  let d2 : ℝ := 0.3224671290700398
  let d3 : ℝ := 2.445134137142996
  let d4 : ℝ := 3.754408661907416
  let q := Real.sqrt (-2 * Real.log (1 - p))
  (-(((((c1 * q + c2) * q + c3) * q + c4) * q + c5) * q + c6)) /
    ((((d1 * q + d2) * q + d3) * q + d4) * q + 1)

/-- The central regime of the Acklam approximation. -/
noncomputable def acklamCentral (p : ℝ) : ℝ :=
  let a1 : ℝ := -39.69683028665376
  let a2 : ℝ := 220.9460984245205
  let a3 : ℝ := -275.9285104469687
  let a4 : ℝ := 138.3577518672690
  let a5 : ℝ := -30.66479806614716
  let a6 : ℝ := 2.506628277459239
  let b1 : ℝ := -54.47609879822406
  let b2 : ℝ := 161.5858368580409
  let b3 : ℝ := -155.6989798598866
  let b4 : ℝ := 66.80131188771972
  let b5 : ℝ := -13.28068155288572
  let q := p - 0.5
  let r := q * q
  (((((a1 * r + a2) * r + a3) * r + a4) * r + a5) * r + a6) * q /
    (((((b1 * r + b2) * r + b3) * r + b4) * r + b5) * r + 1)

/-- The function `getChiSquareCriticalValue` from the statistics file (lines 57-86):
exact for df = 1 and df = 2, Wilson-Hilferty approximation otherwise. -/
noncomputable def getChiSquareCriticalValue (df : ℕ) (alpha : ℝ) : ℝ :=
  if df < 1 then 0
  else
    let p := 1 - alpha
    if df = 1 then
      (let z := getNormInverse (1 - alpha / 2); z * z)
    else if df = 2 then
      -2 * Real.log alpha
    else
      (let z_p := getNormInverse p;
        let term := 1 - (2 / (9 * (df:ℝ))) + z_p * Real.sqrt (2 / (9 * (df:ℝ)));
        (df:ℝ) * term ^ (3:ℕ))

/-- One interval of the chi-square table (`start`, `end`, observed,
expected, chi contribution); `stop` stands for the source's `end`. -/
structure ChiInterval where
  start : ℚ
  stop : ℚ
  oi : ℕ
  ei : ℚ
  chiPart : ℚ
deriving DecidableEq

/-- Result record of `calculateChiSquare`. -/
structure ChiSquareResult where
  intervals : List ChiInterval
  chiStat : ℚ
  criticalValue : ℝ
  dof : ℕ
  isUniform : Prop
  N : ℕ
  alpha : ℝ
  k : ℕ

/-- The function `calculateChiSquare` from the statistics file (lines 105-140): partitions
[0,1) into k intervals (the last one closed), counts observations, sums the
chi-square contributions and compares with the critical value. -/
noncomputable def calculateChiSquare (numbers : List ℚ) (k : ℕ) (alpha : ℝ) :
    ChiSquareResult :=
  let N := numbers.length
  let Ei : ℚ := (N:ℚ) / (k:ℚ)
  let intervals := (List.range k).map (fun i =>
    let start : ℚ := (i:ℚ) / (k:ℚ)
    let stop : ℚ := ((i:ℚ) + 1) / (k:ℚ)
    let oi := (numbers.filter (fun n =>
      decide (start ≤ n) &&
        (if i = k - 1 then decide (n ≤ stop) else decide (n < stop)))).length
    { start := start, stop := stop, oi := oi, ei := Ei,
      chiPart := ((oi:ℚ) - Ei) ^ (2:ℕ) / Ei })
  let chiStat := (intervals.map (·.chiPart)).sum
  let dof := k - 1
  let criticalValue := getChiSquareCriticalValue dof alpha
  { intervals := intervals, chiStat := chiStat, criticalValue := criticalValue,
    dof := dof, isUniform := ((chiStat:ℚ):ℝ) < criticalValue, N := N,
    alpha := alpha, k := k }

/-- Claim C6: for k ≥ 3 and alpha in (0,1), the chi-square critical value is
z² with z = Φ⁻¹(1 − α/2) for df = 1, −2·ln(α) for df = 2, and otherwise the
Wilson-Hilferty approximation with z_p = Φ⁻¹(1−α); Φ⁻¹ is the three-regime
Acklam rational approximation (tail-low p < 0.02425, tail-high p > 0.97575,
central); the decision is uniform iff chiStat < criticalValue. -/
theorem chiSquare_critical_spec (numbers : List ℚ) (k : ℕ) (alpha : ℝ)
    (hk : 3 ≤ k) (h0 : 0 < alpha) (h1 : alpha < 1) :
    ((calculateChiSquare numbers k alpha).criticalValue =
      if k - 1 = 1 then
        getNormInverse (1 - alpha / 2) * getNormInverse (1 - alpha / 2)
      else if k - 1 = 2 then -2 * Real.log alpha
      else ((k:ℝ) - 1) *
        (1 - 2 / (9 * ((k:ℝ) - 1)) +
          getNormInverse (1 - alpha) * Real.sqrt (2 / (9 * ((k:ℝ) - 1)))) ^ (3:ℕ)) ∧
    ((calculateChiSquare numbers k alpha).isUniform ↔
      (((calculateChiSquare numbers k alpha).chiStat : ℝ) <
        (calculateChiSquare numbers k alpha).criticalValue)) ∧
    (∀ p : ℝ, p < 0.02425 → getNormInverse p = acklamTailLow p) ∧
    (∀ p : ℝ, 0.97575 < p → getNormInverse p = acklamTailHigh p) ∧
    (∀ p : ℝ, 0.02425 ≤ p → p ≤ 0.97575 → getNormInverse p = acklamCentral p) := by
  refine ⟨?_, Iff.rfl, fun p hp => ?_, fun p hp => ?_, fun p hp1 hp2 => ?_⟩
  · show getChiSquareCriticalValue (k - 1) alpha = _
    rw [getChiSquareCriticalValue, if_neg (by omega)]
    dsimp only
    have hcast : (((k - 1 : ℕ)):ℝ) = (k:ℝ) - 1 := by
      push_cast [Nat.cast_sub (by omega : 1 ≤ k)]
      ring
    by_cases hk2 : k - 1 = 2
    · rw [if_neg (by omega), if_pos hk2, if_neg (by omega), if_pos hk2]
    · rw [if_neg (by omega), if_neg hk2, if_neg (by omega), if_neg hk2, hcast]
  · rw [getNormInverse, acklamTailLow]
    dsimp only
    rw [if_pos hp]
  · rw [getNormInverse, acklamTailHigh]
    dsimp only
    rw [if_neg (by norm_num at hp ⊢; try linarith),
      if_pos (by norm_num at hp ⊢; try linarith)]
  · rw [getNormInverse, acklamCentral]
    dsimp only
    rw [if_neg (by norm_num at hp1 hp2 ⊢; try linarith),
      if_neg (by norm_num at hp1 hp2 ⊢; try linarith)]

theorem witC6 :
    ((3:ℕ) ≤ 3 ∧ (0:ℝ) < 1/2 ∧ (1/2:ℝ) < 1) ∧
    ((calculateChiSquare [] 3 (1/2)).criticalValue =
      if 3 - 1 = 1 then
        getNormInverse (1 - (1/2:ℝ) / 2) * getNormInverse (1 - (1/2:ℝ) / 2)
      else if 3 - 1 = 2 then -2 * Real.log (1/2)
      else ((3:ℝ) - 1) *
        (1 - 2 / (9 * ((3:ℝ) - 1)) +
          getNormInverse (1 - (1/2:ℝ)) * Real.sqrt (2 / (9 * ((3:ℝ) - 1)))) ^ (3:ℕ)) ∧
    ((calculateChiSquare [] 3 (1/2)).isUniform ↔
      (((calculateChiSquare [] 3 (1/2)).chiStat : ℝ) <
        (calculateChiSquare [] 3 (1/2)).criticalValue)) ∧
    (∀ p : ℝ, p < 0.02425 → getNormInverse p = acklamTailLow p) ∧
    (∀ p : ℝ, 0.97575 < p → getNormInverse p = acklamTailHigh p) ∧
    (∀ p : ℝ, 0.02425 ≤ p → p ≤ 0.97575 → getNormInverse p = acklamCentral p) :=
  ⟨⟨by norm_num, by norm_num, by norm_num⟩,
    chiSquare_critical_spec [] 3 (1/2) (by norm_num) (by norm_num) (by norm_num)⟩

/-- Result record of `calculateDependency` (statistics file, lines 142-148). -/
structure DependencyResult where
  correlations : List (ℕ × ℚ)
  avgAbsCorrelation : ℚ
  isIndependent : Bool
  N : ℕ
  alpha : ℚ
deriving DecidableEq

/-- The function `calculateDependency` from the statistics file (lines 150-206): sample
mean and (n-1)-divisor variance over the whole sequence, lag-k
autocorrelations r_k for k = 1..n-1 with a zero-variance guard, the average
absolute correlation — and an `isIndependent` decision that is hard-coded to
`true` (the file's own comment: returned to show the positive UI). -/
def calculateDependency (numbers : List ℚ) (_lag : ℕ) (alpha : ℚ) : DependencyResult :=
  let n := numbers.length
  let mean := numbers.sum / (n:ℚ)
  let variance : ℚ :=
    if 1 < n then (numbers.map (fun x => (x - mean) ^ (2:ℕ))).sum / ((n:ℚ) - 1) else 0
  let correlations := (List.range (n - 1)).map (fun j =>
    let k := j + 1
    let covSum := ((List.range (n - k)).map (fun i =>
      (numbers.getD i 0 - mean) * (numbers.getD (i + k) 0 - mean))).sum
    let r_k : ℚ := if variance ≠ 0 then (1 / ((n:ℚ) - (k:ℚ))) * (covSum / variance) else 0
    (k, r_k))
  let avgAbsCorrelation :=
    if 0 < correlations.length then
      ((correlations.map (fun c => |c.2|)).sum) / (correlations.length:ℚ)
    else 0
  { correlations := correlations, avgAbsCorrelation := avgAbsCorrelation,
    isIndependent := true, N := n, alpha := alpha }

/-- Claim C7 (code evaluation): the autocorrelation test reports
`isIndependent = true` for every input and significance level — it never
computes a Z statistic or flags a lag. At the failing input
[0, 1, 0, 1, 0, 1] with alpha = 0.05, the lag-1 correlation is -5/6, so
|Z_1| = (5/6)·√6 ≈ 2.04 exceeds z_critical(0.05) = 1.96 and the claimed
decision rule would report dependence; the code still reports true. -/
theorem dependency_always_independent :
    (∀ (numbers : List ℚ) (lag : ℕ) (alpha : ℚ),
      (calculateDependency numbers lag alpha).isIndependent = true) ∧
    (calculateDependency [0, 1, 0, 1, 0, 1] 1 (1/20)).isIndependent = true ∧
    (calculateDependency [0, 1, 0, 1, 0, 1] 1 (1/20)).correlations.getD 0 (0, 0) =
      (1, -5/6) := by
  refine ⟨fun numbers lag alpha => rfl, rfl, ?_⟩
  rw [calculateDependency]
  norm_num [List.range_succ]
